import Mathlib

/-!
Verification of the PyGnome particle-property and weathering update engine.

Shallow embedding of the core of `gnome/weatherers/cleanup.py`,
`gnome/weatherers/intrinsic.py` and `gnome/spill_container.py`.

Conventions of the embedding:
* numpy float arithmetic is modelled exactly: by `ℚ` where the code only
  uses field operations, and by `ℝ` where it uses `sqrt`, `exp`, `pi` or
  non-integer powers;
* a structured-array row (one particle, an LE) becomes a record, a column
  operation under a boolean mask becomes a row-wise operation guarded by
  the mask predicate, via the helpers `setMasked` and `maskSelect`;
* a Python exception (`ValueError`, `KeyError`, `IndexError`) becomes an
  `Except String` result.
-/

namespace PyGnome

/-- Modelled from the spec: the lifecycle-status enum `oil_status` from
`gnome.basic_types` (the module is not part of the sources at hand); the
spec lists the markers in_water, skim, to_be_removed among others. -/
inductive OilStatus where
  | in_water
  | on_land
  | skim
  | to_be_removed
  deriving DecidableEq

/-- One particle (LE) row of the particle store, restricted to the columns
the cleanup weatherers touch: `status_codes`, `mass`, `mass_components`. -/
structure LE where
  status : OilStatus
  mass : ℚ
  comps : List ℚ
  deriving DecidableEq

/-- The per-substance data view the weatherers receive from
`sc.itersubstancedata`: the rows plus the common second dimension of the
`mass_components` array (`data['mass_components'].shape[1]`). -/
structure ElemData where
  ncomps : ℕ
  rows : List LE
  deriving DecidableEq

/-- `numpy` boolean-mask assignment `a[mask] = repl`: positions of `a` where
`mask` holds are replaced by the successive elements of `repl`. -/
def setMasked {α : Type} : List α → List Bool → List α → List α
  | [], _, _ => []
  | xs, [], _ => xs
  | x :: xs, b :: bs, repl =>
    if b then
      match repl with
      | r :: rs => r :: setMasked xs bs rs
      | [] => x :: setMasked xs bs []
    else x :: setMasked xs bs repl

/-- `numpy` boolean-mask read `a[mask]`: the elements of `a` at the positions
where `mask` holds. -/
def maskSelect {α : Type} : List α → List Bool → List α
  | [], _ => []
  | _ :: _, [] => []
  | x :: xs, b :: bs => if b then x :: maskSelect xs bs else maskSelect xs bs

/-- `np.cumsum`: running sums of a list, same length as the input. -/
def cumsum (l : List ℚ) : List ℚ := (l.scanl (· + ·) 0).tail

/-- Total of the `mass` column of a row list. -/
def totalMass (rows : List LE) : ℚ := (rows.map (·.mass)).sum

/-- Mass of the rows currently marked `skim`
(`data['mass'][status_codes == skim].sum()`). -/
def skimMass (rows : List LE) : ℚ :=
  ((rows.filter (fun r => r.status = OilStatus.skim)).map (·.mass)).sum

/-- `Burn.weather_elements` (cleanup.py lines 213-226), for the single
substance being modeled.  `active` is `self.active`; `sc.weathering_data`'s
`burned` entry is threaded explicitly.  While active on a non-empty
container it scales every `mass_components` entry of every `in_water` row
by `1 - 0.25/n` where `n = data['mass_components'].shape[1]`, recomputes
`mass` as the row sum of `mass_components`, and adds the removed mass to
`burned`. -/
def burnWeatherElements (active : Bool) (sc : ElemData) (burned : ℚ) :
    ElemData × ℚ :=
  if active = true ∧ sc.rows ≠ [] then
    let pct : ℚ := 1 - (0.25 : ℚ) / (sc.ncomps : ℚ)
    let removed : ℚ :=
      ((sc.rows.filter (fun r => r.status = OilStatus.in_water)).map
        (fun r => (r.comps.map (fun c => c - pct * c)).sum)).sum
    let rows' := sc.rows.map (fun r =>
      if r.status = OilStatus.in_water then
        let remain := r.comps.map (fun c => pct * c)
        { r with comps := remain, mass := remain.sum }
      else r)
    ({ sc with rows := rows' }, burned + removed)
  else (sc, burned)

/-- `Dispersion.weather_elements` (cleanup.py lines 237-250): identical to
`Burn.weather_elements` except that the scale factor is `1 - 0.015/n` and
the removed mass accumulates into `dispersed`. -/
def dispersionWeatherElements (active : Bool) (sc : ElemData) (dispersed : ℚ) :
    ElemData × ℚ :=
  if active = true ∧ sc.rows ≠ [] then
    let pct : ℚ := 1 - (0.015 : ℚ) / (sc.ncomps : ℚ)
    let removed : ℚ :=
      ((sc.rows.filter (fun r => r.status = OilStatus.in_water)).map
        (fun r => (r.comps.map (fun c => c - pct * c)).sum)).sum
    let rows' := sc.rows.map (fun r =>
      if r.status = OilStatus.in_water then
        let remain := r.comps.map (fun c => pct * c)
        { r with comps := remain, mass := remain.sum }
      else r)
    ({ sc with rows := rows' }, dispersed + removed)
  else (sc, dispersed)

/-- Modelled from the spec: the external `unit_conversion` package.  The
spec says the Skimmer's `amount` is converted to kg; we carry the two
representative unit kinds of `Skimmer._get_mass` — a mass unit (`'kg'`,
identity conversion) and a volume unit (`'m^3'`, identity conversion
followed by the density multiplication done in `_get_mass`). -/
inductive AmountUnits where
  | kilograms
  | cubicMeters
  deriving DecidableEq

/-- The substance data the Skimmer consults: `substance.get_density()`
(density at 15 C, used for volume-to-mass conversion). -/
structure SubstanceQ where
  density : ℚ
  deriving DecidableEq

/-- Configuration of a `Skimmer` (cleanup.py lines 28-69).  Times are in
seconds (`datetime` and `timedelta` values are measured by
`total_seconds()` throughout the code). -/
structure Skimmer where
  amount : ℚ
  units : AmountUnits
  efficiency : ℚ
  activeStart : ℚ
  activeStop : ℚ
  isOn : Bool
  deriving DecidableEq

/-- `self._rate = self.amount/(self.active_stop - self.active_start)
.total_seconds()` (cleanup.py lines 61-62). -/
def Skimmer.rate (sk : Skimmer) : ℚ := sk.amount / (sk.activeStop - sk.activeStart)

/-- `Skimmer._get_mass` (cleanup.py lines 153-163): return `amount` in kg;
mass units convert directly, volume units convert to `m^3` and multiply by
the substance density. -/
def Skimmer.getMass (sk : Skimmer) (sub : SubstanceQ) (amount : ℚ) : ℚ :=
  match sk.units with
  | AmountUnits.kilograms => amount
  | AmountUnits.cubicMeters => sub.density * amount

/-- `Skimmer._mass_to_remove` (cleanup.py lines 165-173):
`self._get_mass(substance, self._rate * self._timestep)`. -/
def Skimmer.massToRemove (sk : Skimmer) (sub : SubstanceQ) (timestep : ℚ) : ℚ :=
  sk.getMass sub (sk.rate * timestep)

/-- Mark a row for skimming: `status_codes[...] = oil_status.skim`. -/
def setSkim (r : LE) : LE := { r with status := OilStatus.skim }

/-- The marking block of `Skimmer.prepare_for_model_step` (cleanup.py lines
139-146): if the threshold reaches the whole population's mass, mark every
row; otherwise find the first row index at which `np.cumsum(mass)` reaches
the threshold and mark the rows up to and including it.  The `none` branch
mirrors the `IndexError` `np.where(...)[0][0]` would raise; it is
unreachable because in that branch the total mass exceeds the threshold. -/
def skimMarkRows (thr : ℚ) (rows : List LE) : List LE :=
  if (rows.map (·.mass)).sum ≤ thr then rows.map setSkim
  else
    match (cumsum (rows.map (·.mass))).findIdx? (fun c => thr ≤ c) with
    | some i => (rows.take (i + 1)).map setSkim ++ rows.drop (i + 1)
    | none => rows

/-- The container state a Skimmer acts on: the single substance, the
element data and the `skimmed` entry of `sc.weathering_data`. -/
structure SkimState where
  sub : SubstanceQ
  data : ElemData
  skimmed : ℚ
  deriving DecidableEq

/-- The marking guard of `Skimmer.prepare_for_model_step` (cleanup.py lines
127-148): the rows are (re)marked only when no row currently carries
`status == skim`, using the whole-lifetime removal threshold
`self._get_mass(substance, self.amount) * self.efficiency`. -/
def Skimmer.markStep (sk : Skimmer) (st : SkimState) : SkimState :=
  { st with data := { st.data with rows :=
      (if (st.data.rows.countP (fun r => r.status = OilStatus.skim)) = 0 then
        skimMarkRows (sk.getMass st.sub sk.amount * sk.efficiency) st.data.rows
      else st.data.rows) } }

/-- `Skimmer.prepare_for_model_step` (cleanup.py lines 95-151).  Returns
`(self._active, self._timestep, the container after marking)`.  When `on`
is false the weatherer is forced inactive (`self._timestep` keeps its stale
value, which the inactive `weather_elements` never reads; we return 0).
When the step window overlaps the active window, `_timestep` is clipped at
`active_start` and then (overriding) at `active_stop`, and the rows are
passed through the marking guard `markStep`. -/
def Skimmer.prepareForModelStep (sk : Skimmer) (st : SkimState)
    (timeStep modelTime : ℚ) : Bool × ℚ × SkimState :=
  if sk.isOn = false then (false, 0, st)
  else
    let ts0 := timeStep
    if sk.activeStart < modelTime + timeStep ∧ modelTime < sk.activeStop then
      let ts1 := if modelTime < sk.activeStart
        then timeStep - (sk.activeStart - modelTime) else ts0
      let ts2 := if sk.activeStop < modelTime + timeStep
        then sk.activeStop - modelTime else ts1
      (true, ts2, sk.markStep st)
    else (false, ts0, st)

/-- `Skimmer.weather_elements` (cleanup.py lines 175-202), single
substance.  While active on a non-empty container it removes
`self._mass_to_remove(substance) * self.efficiency` kilograms: every
`skim`-marked row's `mass_components` are scaled by `1 - rm_mass_frac`
where `rm_mass_frac = rm_mass / data['mass'][mask].sum()`, `mass` is
recomputed as the row sum, and `rm_mass` is added to `skimmed`. -/
def Skimmer.weatherElements (sk : Skimmer) (active : Bool) (timestep : ℚ)
    (st : SkimState) : SkimState :=
  if active = true ∧ st.data.rows ≠ [] then
    let rmMass := sk.massToRemove st.sub timestep * sk.efficiency
    let frac := rmMass / skimMass st.data.rows
    let rows' := st.data.rows.map (fun r =>
      if r.status = OilStatus.skim then
        let remain := r.comps.map (fun c => (1 - frac) * c)
        { r with comps := remain, mass := remain.sum }
      else r)
    { st with data := { st.data with rows := rows' },
              skimmed := st.skimmed + rmMass }
  else st

/-- One model step as the driver runs it for a Skimmer:
`prepare_for_model_step` followed by `weather_elements`. -/
def Skimmer.step (sk : Skimmer) (st : SkimState) (modelTime timeStep : ℚ) :
    SkimState :=
  let p := sk.prepareForModelStep st timeStep modelTime
  sk.weatherElements p.1 p.2.1 p.2.2

/-- A run of consecutive model steps: `model_time` starts at `t` and each
step advances it by that step's duration. -/
def Skimmer.run (sk : Skimmer) : ℚ → List ℚ → SkimState → SkimState
  | _, [], st => st
  | t, dt :: rest, st => Skimmer.run sk (t + dt) rest (sk.step st t dt)

/-- Arithmetic side conditions on a run's steps: every step duration is
nonnegative and no single step strictly contains the whole active window
(the code's sub-step clipping computes the overlap with the active window
only for steps that do not straddle both window ends at once). -/
def stepsOK (sk : Skimmer) : ℚ → List ℚ → Bool
  | _, [] => true
  | t, dt :: rest =>
    (decide (0 ≤ dt) && !(decide (t < sk.activeStart) &&
      decide (sk.activeStop < t + dt))) && stepsOK sk (t + dt) rest

/-- Trace-dependent side condition on a run: at every step on which the
skimmer is active, the mass currently marked `skim` (after the marking in
`prepare_for_model_step`) is nonzero, so `rm_mass_frac`'s denominator is
nonzero. -/
def goodTrace (sk : Skimmer) : ℚ → List ℚ → SkimState → Bool
  | _, [], _ => true
  | t, dt :: rest, st =>
    (let p := sk.prepareForModelStep st dt t
     (!p.1 || decide (skimMass p.2.2.data.rows ≠ 0))) &&
    goodTrace sk (t + dt) rest (sk.step st t dt)

/-- Clamp a time into the active window; consecutive differences of this
function give the overlap of a step with the window. -/
def clampW (sk : Skimmer) (x : ℚ) : ℚ := max sk.activeStart (min x sk.activeStop)

/-- Row-list invariant: every particle's `mass_components` sum to its
`mass`. -/
def rowsInv (rows : List LE) : Prop := ∀ r ∈ rows, r.comps.sum = r.mass

instance (rows : List LE) : Decidable (rowsInv rows) := by
  unfold rowsInv; infer_instance

/-- A particle row restricted to the columns
`IntrinsicProps._update_weathering_data` reads: `status_codes`, `mass`,
`density`, `viscosity`. -/
structure WRow where
  status : OilStatus
  mass : ℚ
  density : ℚ
  viscosity : ℚ
  deriving DecidableEq

/-- The aggregate entries of `sc.weathering_data` that
`IntrinsicProps._update_weathering_data` writes.  `amount_released` is
optional because the code tests `'amount_released' in sc.weathering_data`
before accumulating. -/
structure WeatheringData where
  avgDensity : ℚ
  avgViscosity : ℚ
  floating : ℚ
  amountReleased : Option ℚ
  deriving DecidableEq

/-- `IntrinsicProps._update_weathering_data` (intrinsic.py lines 188-210):
`avg_density = np.sum(mass/np.sum(mass) * density)` and likewise for
viscosity; `floating = mass[status_codes == in_water].sum()`; when
`new_LEs > 0` the mass of the last `new_LEs` rows is added to
`amount_released` (creating the entry if absent). -/
def updateWeatheringData (newLEs : ℕ) (rows : List WRow)
    (wd : WeatheringData) : WeatheringData :=
  let total := (rows.map (·.mass)).sum
  let wd1 := { wd with
    avgDensity := (rows.map (fun r => r.mass / total * r.density)).sum
    avgViscosity := (rows.map (fun r => r.mass / total * r.viscosity)).sum
    floating :=
      ((rows.filter (fun r => r.status = OilStatus.in_water)).map (·.mass)).sum }
  if 0 < newLEs then
    let released := ((rows.drop (rows.length - newLEs)).map (·.mass)).sum
    { wd1 with amountReleased := some (match wd.amountReleased with
        | some prev => prev + released
        | none => released) }
  else wd1

/-- A value of one of the `SpillContainer` data arrays; the container holds
columns of different dtypes in one dict, so the model sums the dtypes the
claims need (floats, status codes, substance indices). -/
inductive Val where
  | q : ℚ → Val
  | st : OilStatus → Val
  | idx : ℕ → Val
  deriving DecidableEq

/-- The `SpillContainer` state the container-level claims need:
`self._data_arrays` (name-keyed columns), the substances list of
`self._substances_spills` (an entry is `true` for an actual substance and
`false` for the `None` substance, which `get_substances(complete=True)`
also counts), and `self._substances_spills.data` (the per-substance copies
of the data arrays). -/
structure SCM where
  dataArrays : List (String × List Val)
  substances : List Bool
  subsData : List (List (String × List Val))
  deriving DecidableEq

/-- `self[name]` = `self._data_arrays[name]`; a missing name raises
`KeyError`. -/
def lookupArray (das : List (String × List Val)) (name : String) :
    Except String (List Val) :=
  match das.find? (fun kv => kv.1 = name) with
  | some kv => Except.ok kv.2
  | none => Except.error ("KeyError: " ++ name)

/-- Replace the column stored under `name`. -/
def storeArray (das : List (String × List Val)) (name : String)
    (col : List Val) : List (String × List Val) :=
  das.map (fun kv => if kv.1 = name then (kv.1, col) else kv)

/-- `np.delete(col, idxs, axis=0)`: drop the rows whose index is in `idxs`,
keeping the remaining rows in their relative order. -/
def deleteRows (col : List Val) (idxs : List ℕ) : List Val :=
  (col.enum.filter (fun p => !(idxs.contains p.1))).map (·.2)

/-- `SpillContainer._reset_substances_spills_data` (spill_container.py lines
695-700): when more than one substance is present, look up the substance
indices of the removed rows in `self['substances']` and clear the cached
per-substance data dicts of those substances.  The lookup name
`'substances'` is taken verbatim from the code; the array that actually
exists is named `'substance'` (created in `_set_substancespills`). -/
def resetSubstancesSpillsData (sc : SCM) (toBeRemoved : List ℕ) :
    Except String SCM :=
  if 1 < sc.substances.length then do
    let subsCol ← lookupArray sc.dataArrays ("substances")
    let subsIdx := (toBeRemoved.filterMap (fun i =>
      match subsCol.get? i with
      | some (Val.idx n) => some n
      | _ => none)).dedup
    Except.ok { sc with subsData := sc.subsData.enum.map (fun p =>
      if subsIdx.contains p.1 then [] else p.2) }
  else Except.ok sc

/-- `SpillContainer.model_step_is_done` (spill_container.py lines 702-717):
nothing happens while the arrays are undefined or no row has status
`to_be_removed`; otherwise, for every array-type key, the per-substance
data copies are reset and the rows at the removed indices are deleted from
that key's column (the keys of `_array_types` coincide with the keys of
`_data_arrays` once the arrays are initialized). -/
def modelStepIsDone (sc : SCM) : Except String SCM :=
  if sc.dataArrays.length = 0 then Except.ok sc
  else do
    let statusCol ← lookupArray sc.dataArrays ("status_codes")
    let toBeRemoved := (statusCol.enum.filter
      (fun p => p.2 = Val.st OilStatus.to_be_removed)).map (·.1)
    if toBeRemoved.length = 0 then Except.ok sc
    else
      (sc.dataArrays.map (·.1)).foldlM (fun acc key => do
        let acc2 ← resetSubstancesSpillsData acc toBeRemoved
        let col ← lookupArray acc2.dataArrays key
        Except.ok { acc2 with
          dataArrays := storeArray acc2.dataArrays key
            (deleteRows col toBeRemoved) }) sc

/-- The view-building part of `SpillContainer._set_substancespills`
(spill_container.py lines 296-352) that the data-view claims depend on:
the per-substance `data` dicts start out empty, and when exactly one
substance is present `data[0]` is the main `_data_arrays` store itself
(no copy); with more than one substance a `'substance'` array type is
added and the copies stay empty until `_set_substancedata` fills them. -/
def setSubstancespills (sc : SCM) : SCM :=
  let base := { sc with subsData := List.replicate sc.substances.length [] }
  if sc.substances.length = 1 then { base with subsData := [sc.dataArrays] }
  else base

/-- `SpillContainer._set_substancedata` (spill_container.py lines 468-481):
for each actual substance, copy `self[array][substance == ix]` into the
per-substance dict for every requested array not already there. -/
def setSubstancedata (sc : SCM) (arrays : List String) : SCM :=
  { sc with subsData := sc.subsData.enum.map (fun p =>
      if sc.substances.get? p.1 = some true then
        arrays.foldl (fun d a =>
          if (d.find? (fun kv => kv.1 = a)).isSome then d
          else
            match lookupArray sc.dataArrays a,
                  lookupArray sc.dataArrays ("substance") with
            | Except.ok col, Except.ok subsCol =>
              d ++ [(a, maskSelect col
                (subsCol.map (fun v => decide (v = Val.idx p.1))))]
            | _, _ => d) p.2
      else p.2) }

/-- `SpillContainer.itersubstancedata` (spill_container.py lines 420-440)
on a container whose substances view is already built: with more than one
substance first materialize the per-substance copies, then return the
(substance, data) pairs, omitting the `None` substance. -/
def itersubstancedata (sc : SCM) (arrays : List String) :
    List (Bool × List (String × List Val)) :=
  let sc2 := if 1 < sc.substances.length then setSubstancedata sc arrays else sc
  (sc2.substances.zip sc2.subsData).filter (fun p => p.1)

/-- `SpillContainer.update_from_substancedata` for a given substance
(spill_container.py lines 442-459): a no-op when exactly one substance is
present; otherwise write each requested array of the substance's working
copy back into the main store at the rows whose `'substance'` index equals
the substance's index. -/
def updateFromSubstancedata (sc : SCM) (arrays : List String) (ix : ℕ) :
    Except String SCM :=
  if sc.substances.length = 1 then Except.ok sc
  else
    match sc.subsData.get? ix with
    | none => Except.error ("IndexError: data")
    | some data => do
      let subsCol ← lookupArray sc.dataArrays ("substance")
      let mask := subsCol.map (fun v => decide (v = Val.idx ix))
      arrays.foldlM (fun acc a => do
        let mainCol ← lookupArray acc.dataArrays a
        match data.find? (fun kv => kv.1 = a) with
        | none => Except.error ("KeyError: " ++ a)
        | some kv =>
          Except.ok { acc with
            dataArrays := storeArray acc.dataArrays a
              (setMasked mainCol mask kv.2) }) sc

/-- Modelled from the spec: `gnome.constants.gravity` (the module is not
part of the sources at hand); the spec's reference scenario uses
`g = 9.8`. -/
noncomputable def gravity : ℝ := 9.8

/-- `FayGravityViscous.spreading_const = (1.53, 1.21)` (intrinsic.py line
29), first component. -/
noncomputable def spreadingConstK1 : ℝ := 1.53

/-- `FayGravityViscous.spreading_const`, second component. -/
noncomputable def spreadingConstK2 : ℝ := 1.21

/-- `FayGravityViscous.thickness_limit = .0001` (intrinsic.py line 30). -/
noncomputable def thicknessLimit : ℝ := 0.0001

/-- `IntrinsicProps.visc_curvfit_param = 1.5e3` (intrinsic.py line 161). -/
noncomputable def viscCurvfitParam : ℝ := 1.5e3

/-- `IntrinsicProps.visc_f_ref = 0.84` (intrinsic.py line 162). -/
noncomputable def viscFRef : ℝ := 0.84

/-- `FayGravityViscous.init_area` (intrinsic.py lines 32-57) together with
its `_check_relative_bouyancy` guard: error when the relative buoyancy is
negative, otherwise
`pi * (k2^4/k1^2) * ((V0^5 * g * dbuoy) / nu^2)^(1/6)`. -/
noncomputable def fayInitArea (waterViscosity initVolume relativeBouyancy : ℝ) :
    Except String ℝ :=
  if relativeBouyancy < 0 then
    Except.error ("Found particles with relative_bouyancy < 0")
  else
    Except.ok (Real.pi * (spreadingConstK2 ^ 4 / spreadingConstK1 ^ 2) *
      ((initVolume ^ 5 * gravity * relativeBouyancy) / waterViscosity ^ 2) ^
        ((1 : ℝ) / 6))

/-- A particle row of the per-substance view with all the columns
`IntrinsicProps` maintains (intrinsic.py `array_types`, lines 145-159). -/
structure RRow where
  density : ℝ
  viscosity : ℝ
  mass : ℝ
  massComponents : List ℝ
  initMass : ℝ
  fracWater : ℝ
  fracLost : ℝ
  relativeBouyancy : ℝ
  initVolume : ℝ
  initArea : ℝ
  area : ℝ
  thickness : ℝ
  fracCoverage : ℝ
  age : ℝ

/-- The per-row area increment `dFay` of `FayGravityViscous.update_area`
(intrinsic.py lines 114-117):
`k2^2/16 * (g*relative_bouyancy*init_volume^2 / sqrt(water_visc*age))`. -/
noncomputable def dFay (waterViscosity : ℝ) (r : RRow) : ℝ :=
  spreadingConstK2 ^ 2 / 16 *
    (gravity * r.relativeBouyancy * r.initVolume ^ 2 /
      Real.sqrt (waterViscosity * r.age))

/-- The per-row increment `dEddy = 0.033*age^(4/25)` (intrinsic.py line
118). -/
noncomputable def dEddy (r : RRow) : ℝ := 0.033 * r.age ^ ((4 : ℝ) / 25)

/-- `FayGravityViscous.update_area` (intrinsic.py lines 70-126): error when
any relative buoyancy is negative or any age is zero; otherwise start from
the current `area` column and overwrite the rows whose `thickness` exceeds
`thickness_limit` with `init_area + (dFay + dEddy)*age`, scaled by
`frac_coverage` when a coverage array is supplied (the scaling happens
inside the mask, so gated-out rows are untouched). -/
noncomputable def fayUpdateArea (waterViscosity : ℝ) (rows : List RRow)
    (useFracCoverage : Bool) : Except String (List ℝ) :=
  if ∃ r ∈ rows, r.relativeBouyancy < 0 then
    Except.error ("Found particles with relative_bouyancy < 0")
  else if ∃ r ∈ rows, r.age = 0 then
    Except.error ("for new particles use init_area - age must be > 0")
  else
    let out0 := rows.map (·.area)
    let mask := rows.map (fun r => decide (thicknessLimit < r.thickness))
    let upd := (rows.filter (fun r => decide (thicknessLimit < r.thickness))).map
      (fun r =>
        let a := r.initArea + (dFay waterViscosity r + dEddy r) * r.age
        if useFracCoverage then a * r.fracCoverage else a)
    Except.ok (setMasked out0 mask upd)

/-- The substance-provider values `IntrinsicProps` reads, all at the water
temperature: `get_density`, `get_viscosity` (absent when the substance has
no viscosity data) and the pseudo-component `mass_fraction` vector. -/
structure SubstanceR where
  density : ℝ
  viscosity : Option ℝ
  massFraction : List ℝ

/-- The water-provider values `IntrinsicProps` reads: `get('density',
'kg/m^3')` and `get('kinematic_viscosity', 'square meter per second')`. -/
structure WaterR where
  density : ℝ
  kinematicViscosity : ℝ

/-- `IntrinsicProps._set_relative_bouyancy` (intrinsic.py lines 325-331):
`(rho_h2o - rho_oil)/rho_h2o`. -/
noncomputable def setRelativeBouyancy (water : WaterR) (rhoOil : ℝ) : ℝ :=
  (water.density - rhoOil) / water.density

/-- `IntrinsicProps._init_new_particles` (intrinsic.py lines 237-281),
applied to the rows selected by the new-particle mask: set `density` from
the substance, overwrite the first `len(mass_fraction)` entries of
`mass_components` with `mass_fraction * mass`, set `init_mass = mass`, set
`viscosity` only if the substance has one, set the scalar
`relative_bouyancy`, the batch scalar
`init_volume = np.sum(init_mass/density)`, `init_area` from the spreading
model (which may raise on negative buoyancy), `area = init_area` and
`thickness = init_volume/area`. -/
noncomputable def initNewParticles (sub : SubstanceR) (water : WaterR)
    (rows : List RRow) : Except String (List RRow) :=
  match rows with
  | [] => Except.ok []
  | _ :: _ => do
    let rho := sub.density
    let rb := setRelativeBouyancy water rho
    let iv := (rows.map (fun r => r.mass / rho)).sum
    let a0 ← fayInitArea water.kinematicViscosity iv rb
    Except.ok (rows.map (fun r =>
      { r with
        density := rho
        massComponents := (sub.massFraction.map (fun f => f * r.mass)) ++
          r.massComponents.drop sub.massFraction.length
        initMass := r.mass
        viscosity := match sub.viscosity with
          | some v => v
          | none => r.viscosity
        relativeBouyancy := rb
        initVolume := iv
        initArea := a0
        area := a0
        thickness := iv / a0 }))

/-- `IntrinsicProps._update_old_particles` (intrinsic.py lines 283-323),
applied to the rows selected by the aged-particle mask: when the substance
has a viscosity `v0` at the water temperature, set
`viscosity = v0 * exp(v0 * visc_curvfit_param * frac_lost) *
(1 + fw_d_fref/(1.187 - fw_d_fref))^2.49` with
`fw_d_fref = frac_water/visc_f_ref`; when it has none, leave `viscosity`
alone.  Then refresh `area` through the spreading model (with the
`frac_coverage` column supplied) and set `thickness = init_volume/area`. -/
noncomputable def updateOldParticles (sub : SubstanceR) (water : WaterR)
    (rows : List RRow) : Except String (List RRow) :=
  let rows1 := match sub.viscosity with
    | some v0 => rows.map (fun r =>
        let fwDfref := r.fracWater / viscFRef
        { r with viscosity := v0 * Real.exp (v0 * viscCurvfitParam * r.fracLost) *
            (1 + fwDfref / (1.187 - fwDfref)) ^ ((2.49 : ℝ)) })
    | none => rows
  do
    let areas ← fayUpdateArea water.kinematicViscosity rows1 true
    Except.ok ((rows1.zip areas).map (fun p =>
      { p.1 with area := p.2, thickness := p.1.initVolume / p.2 }))

/-- The per-substance body of `IntrinsicProps._update_intrinsic_props`
(intrinsic.py lines 212-235): nothing on an empty slice; otherwise compute
the new-particle mask `density == 0` once, initialize the rows under the
mask if there are any, then update the rows under the complementary mask
if there are any (the second pass reads the store as left by the first;
the masks are disjoint so the aged rows are unchanged by it). -/
noncomputable def updateIntrinsicSub (sub : SubstanceR) (water : WaterR)
    (rows : List RRow) : Except String (List RRow) :=
  if rows.length = 0 then Except.ok rows
  else do
    let newMask := rows.map (fun r => decide (r.density = 0))
    let oldMask := newMask.map (!·)
    let d1 ←
      if 0 < newMask.count true then do
        let res ← initNewParticles sub water (maskSelect rows newMask)
        Except.ok (setMasked rows newMask res)
      else Except.ok rows
    if 0 < oldMask.count true then do
      let res ← updateOldParticles sub water (maskSelect d1 oldMask)
      Except.ok (setMasked d1 oldMask res)
    else Except.ok d1

/-- A sample particle row used to instantiate theorems on concrete data. -/
noncomputable def sampleRow : RRow :=
  { density := 0, viscosity := 0, mass := 1, massComponents := [1],
    initMass := 1, fracWater := 0, fracLost := 0, relativeBouyancy := 1,
    initVolume := 1, initArea := 2, area := 3, thickness := 0,
    fracCoverage := 1, age := 4 }

/-! ## Theorems -/

/-- C1, counterexample.  One in_water particle with a single pseudo-component
of mass 1, Burn active: the code leaves component mass `1 - 0.25/1 = 3/4`,
not the `1 * (1 - 0.0025/1) = 0.9975` the claim's fixed fraction
`0.25% / num_pseudo_components` would leave. -/
theorem C1_burn_counterexample :
    (burnWeatherElements true ⟨1, [⟨OilStatus.in_water, 1, [1]⟩]⟩ 0).1.rows.map
        (fun r => r.comps) = [[(3 / 4 : ℚ)]] ∧
    ¬ ((burnWeatherElements true ⟨1, [⟨OilStatus.in_water, 1, [1]⟩]⟩ 0).1.rows.map
        (fun r => r.comps) = [[1 * (1 - (0.0025 : ℚ) / 1)]]) := by
  constructor
  · simp [burnWeatherElements]
    norm_num
  · simp [burnWeatherElements]
    norm_num

/-- C1, amended.  For every active Burn step on a non-empty population with
`n` pseudo-components, `Burn.weather_elements` removes the fixed fraction
`0.25/n` (that is, 25%/n — not 0.25%/n) of each pseudo-component's mass
from every particle with `status == in_water`, recomputes each such
particle's `mass` as the new component sum, and adds the total removed
mass to the `burned` aggregate. -/
theorem C1_burn_fraction (sc : ElemData) (burned : ℚ) (h : sc.rows ≠ []) :
    (burnWeatherElements true sc burned).1.rows =
      sc.rows.map (fun r =>
        if r.status = OilStatus.in_water then
          { r with
            comps := r.comps.map (fun c => c - 0.25 / (sc.ncomps : ℚ) * c),
            mass := (r.comps.map (fun c => c - 0.25 / (sc.ncomps : ℚ) * c)).sum }
        else r) ∧
    (burnWeatherElements true sc burned).2 =
      burned + 0.25 / (sc.ncomps : ℚ) *
        ((sc.rows.filter (fun r => r.status = OilStatus.in_water)).map
          (fun r => r.comps.sum)).sum := by
  unfold burnWeatherElements
  rw [if_pos ⟨rfl, h⟩]
  refine ⟨List.map_congr_left fun r _ => ?_, ?_⟩
  · by_cases hs : r.status = OilStatus.in_water
    · simp only [if_pos hs]
      have hc : r.comps.map (fun c => (1 - (0.25 : ℚ) / (sc.ncomps : ℚ)) * c) =
          r.comps.map (fun c => c - 0.25 / (sc.ncomps : ℚ) * c) :=
        List.map_congr_left fun c _ => by ring
      rw [hc]
    · simp only [if_neg hs]
  · simp only
    congr 1
    have hrow : ∀ r : LE,
        (r.comps.map (fun c => c - (1 - (0.25 : ℚ) / (sc.ncomps : ℚ)) * c)).sum =
          0.25 / (sc.ncomps : ℚ) * r.comps.sum := by
      intro r
      have hm : r.comps.map (fun c => c - (1 - (0.25 : ℚ) / (sc.ncomps : ℚ)) * c) =
          r.comps.map (fun c => 0.25 / (sc.ncomps : ℚ) * c) :=
        List.map_congr_left fun c _ => by ring
      rw [hm]
      have := List.sum_map_mul_left r.comps (fun c => c) (0.25 / (sc.ncomps : ℚ))
      simpa using this
    calc ((sc.rows.filter (fun r => r.status = OilStatus.in_water)).map
            (fun r => (r.comps.map
              (fun c => c - (1 - (0.25 : ℚ) / (sc.ncomps : ℚ)) * c)).sum)).sum
        = ((sc.rows.filter (fun r => r.status = OilStatus.in_water)).map
            (fun r => 0.25 / (sc.ncomps : ℚ) * r.comps.sum)).sum := by
          exact congrArg List.sum (List.map_congr_left fun r _ => hrow r)
      _ = 0.25 / (sc.ncomps : ℚ) *
            ((sc.rows.filter (fun r => r.status = OilStatus.in_water)).map
              (fun r => r.comps.sum)).sum := by
          exact List.sum_map_mul_left _ _ _

/-- C1, witness for the amended theorem at a concrete population. -/
theorem C1_burn_fraction_witness :
    (burnWeatherElements true ⟨2, [⟨OilStatus.in_water, 5, [3, 2]⟩]⟩ 0).1.rows =
      [⟨OilStatus.in_water, 3 - 0.25 / 2 * 3 + (2 - 0.25 / 2 * 2 + 0),
        [3 - 0.25 / 2 * 3, 2 - 0.25 / 2 * 2]⟩] ∧
    (burnWeatherElements true ⟨2, [⟨OilStatus.in_water, 5, [3, 2]⟩]⟩ 0).2 =
      0 + 0.25 / 2 * (3 + 2 + 0) := by
  have h := C1_burn_fraction ⟨2, [⟨OilStatus.in_water, 5, [3, 2]⟩]⟩ 0 (by simp)
  refine ⟨?_, ?_⟩
  · rw [h.1]; simp
  · rw [h.2]; simp

/-- Pull a constant divisor out of a mass-weighted list sum. -/
theorem sum_map_div_mul (l : List WRow) (f g : WRow → ℚ) (t : ℚ) :
    (l.map (fun x => f x / t * g x)).sum = (l.map (fun x => f x * g x)).sum / t := by
  have h1 : l.map (fun x => f x / t * g x) = l.map (fun x => (f x * g x) * t⁻¹) :=
    List.map_congr_left fun x _ => by ring
  rw [h1, List.sum_map_mul_right, div_eq_mul_inv]

/-- C10: after `IntrinsicProps._update_weathering_data` (the aggregate pass
that closes `IntrinsicProps.update`) on a non-empty population,
`weathering_data['floating']` is the sum of `mass` over the rows with
`status_codes == in_water`; `avg_density` and `avg_viscosity` are the
mass-weighted averages of `density` and `viscosity` over all rows; and when
`num_new_released > 0`, `amount_released` grows by the mass of the last
`num_new_released` rows. -/
theorem C10_weathering_data (newLEs : ℕ) (rows : List WRow)
    (wd : WeatheringData) (h : rows ≠ []) :
    (updateWeatheringData newLEs rows wd).floating =
      ((rows.filter (fun r => r.status = OilStatus.in_water)).map (·.mass)).sum ∧
    (updateWeatheringData newLEs rows wd).avgDensity =
      (rows.map (fun r => r.mass * r.density)).sum / (rows.map (·.mass)).sum ∧
    (updateWeatheringData newLEs rows wd).avgViscosity =
      (rows.map (fun r => r.mass * r.viscosity)).sum / (rows.map (·.mass)).sum ∧
    (∀ prev, wd.amountReleased = some prev → 0 < newLEs →
      (updateWeatheringData newLEs rows wd).amountReleased =
        some (prev + ((rows.drop (rows.length - newLEs)).map (·.mass)).sum)) := by
  have hfl : (updateWeatheringData newLEs rows wd).floating =
      ((rows.filter (fun r => r.status = OilStatus.in_water)).map (·.mass)).sum := by
    unfold updateWeatheringData; split <;> rfl
  have hd : (updateWeatheringData newLEs rows wd).avgDensity =
      (rows.map (fun r => r.mass / (rows.map (·.mass)).sum * r.density)).sum := by
    unfold updateWeatheringData; split <;> rfl
  have hv : (updateWeatheringData newLEs rows wd).avgViscosity =
      (rows.map (fun r => r.mass / (rows.map (·.mass)).sum * r.viscosity)).sum := by
    unfold updateWeatheringData; split <;> rfl
  refine ⟨hfl, ?_, ?_, ?_⟩
  · rw [hd, sum_map_div_mul rows (·.mass) (·.density)]
  · rw [hv, sum_map_div_mul rows (·.mass) (·.viscosity)]
  · intro prev hprev hpos
    unfold updateWeatheringData
    rw [if_pos hpos, hprev]

/-- C10, witness: two particles, one floating, one new release. -/
theorem C10_weathering_data_witness :
    (updateWeatheringData 1
      [⟨OilStatus.in_water, 2, 900, 5⟩, ⟨OilStatus.on_land, 3, 800, 7⟩]
      ⟨0, 0, 0, some 4⟩).floating =
      ((([⟨OilStatus.in_water, 2, 900, 5⟩, ⟨OilStatus.on_land, 3, 800, 7⟩] :
        List WRow).filter (fun r => r.status = OilStatus.in_water)).map
          (·.mass)).sum ∧
    (updateWeatheringData 1
      [⟨OilStatus.in_water, 2, 900, 5⟩, ⟨OilStatus.on_land, 3, 800, 7⟩]
      ⟨0, 0, 0, some 4⟩).avgDensity = (2 * 900 + (3 * 800 + 0)) / (2 + (3 + 0)) ∧
    (updateWeatheringData 1
      [⟨OilStatus.in_water, 2, 900, 5⟩, ⟨OilStatus.on_land, 3, 800, 7⟩]
      ⟨0, 0, 0, some 4⟩).amountReleased = some (4 + (3 + 0)) := by
  have h := C10_weathering_data 1
    [⟨OilStatus.in_water, 2, 900, 5⟩, ⟨OilStatus.on_land, 3, 800, 7⟩]
    ⟨0, 0, 0, some 4⟩ (by simp)
  refine ⟨h.1, ?_, ?_⟩
  · rw [h.2.1]; simp
  · have := h.2.2.2 4 rfl (by norm_num)
    rw [this]; simp

/-- C8, code bug: `SpillContainer.model_step_is_done` on a container with
two substances and a row marked `to_be_removed`.
`_reset_substances_spills_data` indexes `self['substances']`, but the data
array created by `_set_substancespills` is named `'substance'`, so the
lookup raises `KeyError` and neither the deletion nor the cache reset
happens. -/
theorem C8_delete_invalidation_bug :
    modelStepIsDone
      { dataArrays := [("status_codes", [Val.st OilStatus.to_be_removed]),
                       ("substance", [Val.idx 0]),
                       ("mass", [Val.q 1])],
        substances := [true, true],
        subsData := [[], []] } =
      Except.error ("KeyError: substances") := by
  rfl

/-- Writing the images of the masked elements back over a pointwise image
of the whole list is the same as a single conditional pointwise pass. -/
theorem setMasked_filter_map {α β : Type} (l : List α) (p : α → Bool)
    (f g : α → β) :
    setMasked (l.map g) (l.map p) ((l.filter p).map f) =
      l.map (fun x => if p x then f x else g x) := by
  induction l with
  | nil => rfl
  | cons x xs ih =>
    by_cases h : p x
    · simp only [List.map_cons, List.filter_cons, h, if_pos, setMasked, ih,
        if_true]
    · simp only [List.map_cons, List.filter_cons, h, setMasked, ih,
        Bool.false_eq_true, if_false]

/-- Success case of `fayUpdateArea` as a pointwise map. -/
theorem fayUpdateArea_ok (wv : ℝ) (rows : List RRow) (useCov : Bool)
    (h1 : ∀ r ∈ rows, 0 ≤ r.relativeBouyancy) (h2 : ∀ r ∈ rows, r.age ≠ 0) :
    fayUpdateArea wv rows useCov =
      Except.ok (rows.map (fun r =>
        if thicknessLimit < r.thickness then
          (r.initArea + (dFay wv r + dEddy r) * r.age) *
            (if useCov then r.fracCoverage else 1)
        else r.area)) := by
  unfold fayUpdateArea
  rw [if_neg (by push_neg; intro r hr; exact h1 r hr),
      if_neg (by push_neg; exact h2)]
  dsimp only
  congr 1
  rw [setMasked_filter_map rows (fun r => decide (thicknessLimit < r.thickness))
    _ (·.area)]
  refine List.map_congr_left fun r _ => ?_
  by_cases ht : thicknessLimit < r.thickness
  · cases useCov
    · simp [ht]
    · simp [ht]
  · simp [ht]

/-- Success case of `fayInitArea`. -/
theorem fayInitArea_ok (wv iv rb : ℝ) (h : 0 ≤ rb) :
    fayInitArea wv iv rb =
      Except.ok (Real.pi * ((1.21 : ℝ) ^ 4 / (1.53 : ℝ) ^ 2) *
        ((iv ^ 5 * (9.8 : ℝ) * rb) / wv ^ 2) ^ ((1 : ℝ) / 6)) := by
  unfold fayInitArea spreadingConstK1 spreadingConstK2 gravity
  rw [if_neg (not_lt.mpr h)]

/-- C5: `FayGravityViscous.init_area` errors when the relative buoyancy is
negative; for nonnegative relative buoyancy it returns
`pi * (k2^4/k1^2) * ((V0^5 * g * rb)/nu^2)^(1/6)` with `k1 = 1.53`,
`k2 = 1.21`, `g = 9.8`; in particular at `rb = 0.1`, `V0 = 10`,
`nu = 1e-6` it returns `pi * (1.21^4/1.53^2) *
((10^5*9.8*0.1)/(1e-6^2))^(1/6)` exactly (hence within any relative
tolerance). -/
theorem C5_init_area (wv iv rb : ℝ) :
    (rb < 0 → fayInitArea wv iv rb =
      Except.error ("Found particles with relative_bouyancy < 0")) ∧
    (0 ≤ rb → fayInitArea wv iv rb =
      Except.ok (Real.pi * ((1.21 : ℝ) ^ 4 / (1.53 : ℝ) ^ 2) *
        ((iv ^ 5 * (9.8 : ℝ) * rb) / wv ^ 2) ^ ((1 : ℝ) / 6))) ∧
    fayInitArea (1e-6 : ℝ) 10 (0.1 : ℝ) =
      Except.ok (Real.pi * ((1.21 : ℝ) ^ 4 / (1.53 : ℝ) ^ 2) *
        (((10 : ℝ) ^ 5 * (9.8 : ℝ) * (0.1 : ℝ)) / (1e-6 : ℝ) ^ 2) ^
          ((1 : ℝ) / 6)) := by
  refine ⟨?_, fayInitArea_ok wv iv rb, ?_⟩
  · intro h
    unfold fayInitArea
    rw [if_pos h]
  · exact fayInitArea_ok (1e-6 : ℝ) 10 (0.1 : ℝ) (by norm_num)

/-- C5, witness: the error branch at a concrete negative buoyancy and the
formula branch at a concrete nonnegative one. -/
theorem C5_init_area_witness :
    fayInitArea 1 2 (-1 : ℝ) =
      Except.error ("Found particles with relative_bouyancy < 0") ∧
    fayInitArea 2 3 (1 : ℝ) =
      Except.ok (Real.pi * ((1.21 : ℝ) ^ 4 / (1.53 : ℝ) ^ 2) *
        (((3 : ℝ) ^ 5 * (9.8 : ℝ) * 1) / (2 : ℝ) ^ 2) ^ ((1 : ℝ) / 6)) :=
  ⟨(C5_init_area 1 2 (-1)).1 (by norm_num),
   (C5_init_area 2 3 1).2.1 (by norm_num)⟩

/-- C4: `FayGravityViscous.update_area` errors when any age is zero or any
relative buoyancy is negative; otherwise a particle with
`thickness <= 1e-4` keeps its current `area`, and a particle with
`thickness > 1e-4` gets `init_area + (dFay + dEddy)*age`, multiplied by
`frac_coverage` when a coverage array is supplied — the coverage factor
touching only the particles that passed the thickness gate. -/
theorem C4_update_area (wv : ℝ) (rows : List RRow) (useCov : Bool) :
    ((∃ r ∈ rows, r.relativeBouyancy < 0) ∨ (∃ r ∈ rows, r.age = 0) →
      ∃ msg, fayUpdateArea wv rows useCov = Except.error msg) ∧
    ((∀ r ∈ rows, 0 ≤ r.relativeBouyancy) → (∀ r ∈ rows, r.age ≠ 0) →
      fayUpdateArea wv rows useCov =
        Except.ok (rows.map (fun r =>
          if thicknessLimit < r.thickness then
            (r.initArea + (dFay wv r + dEddy r) * r.age) *
              (if useCov then r.fracCoverage else 1)
          else r.area))) := by
  constructor
  · intro h
    unfold fayUpdateArea
    by_cases h1 : ∃ r ∈ rows, r.relativeBouyancy < 0
    · rw [if_pos h1]; exact ⟨_, rfl⟩
    · rcases h with h | h
      · exact absurd h h1
      · rw [if_neg h1, if_pos h]; exact ⟨_, rfl⟩
  · exact fayUpdateArea_ok wv rows useCov

/-- C4, witness: one gated-out thin particle and one updated thick
particle, with coverage supplied. -/
theorem C4_update_area_witness :
    fayUpdateArea 1
      [sampleRow, { sampleRow with thickness := 1, fracCoverage := 5 }] true =
      Except.ok [(3 : ℝ),
        (2 + (dFay 1 { sampleRow with thickness := 1, fracCoverage := 5 } +
          dEddy { sampleRow with thickness := 1, fracCoverage := 5 }) * 4) * 5] := by
  have h := (C4_update_area 1
    [sampleRow, { sampleRow with thickness := 1, fracCoverage := 5 }] true).2
    (by intro r hr; fin_cases hr <;> simp [sampleRow])
    (by intro r hr; fin_cases hr <;> simp [sampleRow])
  rw [h]
  congr 1
  simp only [List.map_cons, List.map_nil]
  rw [if_neg (by simp [sampleRow, thicknessLimit]; norm_num),
      if_pos (by simp [sampleRow, thicknessLimit]; norm_num)]
  simp [sampleRow]

/-- Zipping a list with its own pointwise image. -/
theorem zip_self_map {α β : Type} (l : List α) (f : α → β) :
    l.zip (l.map f) = l.map (fun x => (x, f x)) := by
  induction l with
  | nil => rfl
  | cons x xs ih => simp [ih]

/-- C6: on the aged rows (the ones `_update_intrinsic_props` selects by a
nonzero density sentinel), `_update_old_particles` sets
`viscosity = v0 * exp(v0 * 1500 * frac_lost) *
(1 + (frac_water/0.84)/(1.187 - frac_water/0.84))^2.49` when the substance
has a viscosity `v0` at the water temperature, and when the substance has
none it leaves every row's viscosity unchanged and raises no error. -/
theorem C6_viscosity_update (sub : SubstanceR) (water : WaterR)
    (rows : List RRow)
    (hdens : ∀ r ∈ rows, r.density ≠ 0)
    (hrb : ∀ r ∈ rows, 0 ≤ r.relativeBouyancy)
    (hage : ∀ r ∈ rows, r.age ≠ 0) :
    (∀ v0, sub.viscosity = some v0 →
      ∃ out, updateOldParticles sub water rows = Except.ok out ∧
        out.map (·.viscosity) = rows.map (fun r =>
          v0 * Real.exp (v0 * 1500 * r.fracLost) *
            (1 + (r.fracWater / 0.84) / (1.187 - r.fracWater / 0.84)) ^
              ((2.49 : ℝ)))) ∧
    (sub.viscosity = none →
      ∃ out, updateOldParticles sub water rows = Except.ok out ∧
        out.map (·.viscosity) = rows.map (·.viscosity)) := by
  constructor
  · intro v0 hv
    unfold updateOldParticles
    rw [hv]
    dsimp only
    have hrb1 : ∀ r ∈ rows.map (fun r =>
        let fwDfref := r.fracWater / viscFRef
        { r with viscosity := v0 * Real.exp (v0 * viscCurvfitParam * r.fracLost) *
          (1 + fwDfref / (1.187 - fwDfref)) ^ ((2.49 : ℝ)) }),
        0 ≤ r.relativeBouyancy := by
      intro r hr
      rw [List.mem_map] at hr
      obtain ⟨s, hs, rfl⟩ := hr
      exact hrb s hs
    have hage1 : ∀ r ∈ rows.map (fun r =>
        let fwDfref := r.fracWater / viscFRef
        { r with viscosity := v0 * Real.exp (v0 * viscCurvfitParam * r.fracLost) *
          (1 + fwDfref / (1.187 - fwDfref)) ^ ((2.49 : ℝ)) }),
        r.age ≠ 0 := by
      intro r hr
      rw [List.mem_map] at hr
      obtain ⟨s, hs, rfl⟩ := hr
      exact hage s hs
    rw [fayUpdateArea_ok water.kinematicViscosity _ true hrb1 hage1]
    refine ⟨_, rfl, ?_⟩
    rw [zip_self_map, List.map_map, List.map_map, List.map_map]
    refine List.map_congr_left fun r _ => ?_
    show v0 * Real.exp (v0 * viscCurvfitParam * r.fracLost) *
        (1 + r.fracWater / viscFRef / (1.187 - r.fracWater / viscFRef)) ^
          ((2.49 : ℝ)) = _
    unfold viscCurvfitParam viscFRef
    norm_num
  · intro hv
    unfold updateOldParticles
    rw [hv]
    dsimp only
    rw [fayUpdateArea_ok water.kinematicViscosity rows true hrb hage]
    refine ⟨_, rfl, ?_⟩
    rw [zip_self_map, List.map_map, List.map_map]
    exact List.map_congr_left fun r _ => rfl

/-- C6, witness: one aged particle, once with a substance that has a
viscosity and once with a substance that has none. -/
theorem C6_viscosity_update_witness :
    (∃ out, updateOldParticles
        { density := 900, viscosity := some 2, massFraction := [1] }
        { density := 1000, kinematicViscosity := 1 }
        [{ sampleRow with density := 900 }] = Except.ok out ∧
      out.map (·.viscosity) = [{ sampleRow with density := 900 }].map (fun r =>
        (2 : ℝ) * Real.exp (2 * 1500 * r.fracLost) *
          (1 + (r.fracWater / 0.84) / (1.187 - r.fracWater / 0.84)) ^
            ((2.49 : ℝ)))) ∧
    (∃ out, updateOldParticles
        { density := 900, viscosity := none, massFraction := [1] }
        { density := 1000, kinematicViscosity := 1 }
        [{ sampleRow with density := 900 }] = Except.ok out ∧
      out.map (·.viscosity) = [{ sampleRow with density := 900 }].map
        (·.viscosity)) := by
  constructor
  · exact (C6_viscosity_update
      { density := 900, viscosity := some 2, massFraction := [1] }
      { density := 1000, kinematicViscosity := 1 }
      [{ sampleRow with density := 900 }]
      (by intro r hr; fin_cases hr <;> simp [sampleRow])
      (by intro r hr; fin_cases hr <;> simp [sampleRow])
      (by intro r hr; fin_cases hr <;> simp [sampleRow])).1 2 rfl
  · exact (C6_viscosity_update
      { density := 900, viscosity := none, massFraction := [1] }
      { density := 1000, kinematicViscosity := 1 }
      [{ sampleRow with density := 900 }]
      (by intro r hr; fin_cases hr <;> simp [sampleRow])
      (by intro r hr; fin_cases hr <;> simp [sampleRow])
      (by intro r hr; fin_cases hr <;> simp [sampleRow])).2 rfl

/-- The weatherers' common update shape — scale the masked rows' components
and recompute their mass as the component sum — preserves the
mass-components invariant. -/
theorem rowsInv_condUpdate (rows : List LE) (hInv : rowsInv rows)
    (p : LE → Prop) [DecidablePred p] (g : LE → List ℚ) :
    rowsInv (rows.map (fun r =>
      if p r then { r with comps := g r, mass := (g r).sum } else r)) := by
  intro r hr
  rw [List.mem_map] at hr
  obtain ⟨s, hs, rfl⟩ := hr
  by_cases h : p s
  · rw [if_pos h]
  · rw [if_neg h]
    exact hInv s hs

/-- C2: the invariant `sum(mass_components) == mass` (exact in this
embedding, hence within any floating-point tolerance) holds for every
particle after `_init_new_particles` (given a mass-fraction vector summing
to 1 and zero padding components, as `_append_data_arrays` initializes
them), and is preserved by `Skimmer.weather_elements`,
`Burn.weather_elements` and `Dispersion.weather_elements`. -/
theorem C2_mass_sum_invariant :
    (∀ (sub : SubstanceR) (water : WaterR) (rows : List RRow),
      sub.massFraction.sum = 1 →
      (∀ r ∈ rows, (r.massComponents.drop sub.massFraction.length).sum = 0) →
      0 ≤ setRelativeBouyancy water sub.density →
      ∃ out, initNewParticles sub water rows = Except.ok out ∧
        ∀ r ∈ out, r.massComponents.sum = r.mass ∧ r.mass = r.initMass) ∧
    (∀ (sk : Skimmer) (active : Bool) (ts : ℚ) (st : SkimState),
      rowsInv st.data.rows →
      rowsInv (sk.weatherElements active ts st).data.rows) ∧
    (∀ (active : Bool) (sc : ElemData) (burned : ℚ),
      rowsInv sc.rows → rowsInv (burnWeatherElements active sc burned).1.rows) ∧
    (∀ (active : Bool) (sc : ElemData) (dispersed : ℚ),
      rowsInv sc.rows →
      rowsInv (dispersionWeatherElements active sc dispersed).1.rows) := by
  refine ⟨?_, ?_, ?_, ?_⟩
  · intro sub water rows hfrac hpad hrb
    match rows with
    | [] => exact ⟨[], rfl, by intro r hr; cases hr⟩
    | r0 :: rest =>
      unfold initNewParticles
      dsimp only
      rw [fayInitArea_ok _ _ _ hrb]
      refine ⟨_, rfl, ?_⟩
      intro r hr
      rw [List.mem_map] at hr
      obtain ⟨s, hs, rfl⟩ := hr
      refine ⟨?_, rfl⟩
      show ((sub.massFraction.map (fun f => f * s.mass)) ++
        s.massComponents.drop sub.massFraction.length).sum = s.mass
      rw [List.sum_append, List.sum_map_mul_right, hpad s hs, List.map_id',
        hfrac]
      ring
  · intro sk active ts st hInv
    unfold Skimmer.weatherElements
    by_cases hc : active = true ∧ st.data.rows ≠ []
    · rw [if_pos hc]
      exact rowsInv_condUpdate st.data.rows hInv _ _
    · rw [if_neg hc]
      exact hInv
  · intro active sc burned hInv
    unfold burnWeatherElements
    by_cases hc : active = true ∧ sc.rows ≠ []
    · rw [if_pos hc]
      exact rowsInv_condUpdate sc.rows hInv _ _
    · rw [if_neg hc]
      exact hInv
  · intro active sc dispersed hInv
    unfold dispersionWeatherElements
    by_cases hc : active = true ∧ sc.rows ≠ []
    · rw [if_pos hc]
      exact rowsInv_condUpdate sc.rows hInv _ _
    · rw [if_neg hc]
      exact hInv

/-- C2, witness: a concrete new-particle batch and concrete weatherer
steps. -/
theorem C2_mass_sum_invariant_witness :
    (∃ out, initNewParticles
        { density := 900, viscosity := none, massFraction := [1/2, 1/2] }
        { density := 1000, kinematicViscosity := 1 }
        [{ sampleRow with mass := 2, massComponents := [0, 0] }] =
        Except.ok out ∧
      ∀ r ∈ out, r.massComponents.sum = r.mass ∧ r.mass = r.initMass) ∧
    rowsInv ((Skimmer.weatherElements ⟨500, AmountUnits.kilograms, 3/10, 0, 3600, true⟩
      true 60 ⟨⟨900⟩, ⟨1, [⟨OilStatus.skim, 10, [10]⟩]⟩, 0⟩).data.rows) ∧
    rowsInv ((burnWeatherElements true ⟨1, [⟨OilStatus.in_water, 1, [1]⟩]⟩ 0).1.rows) ∧
    rowsInv ((dispersionWeatherElements true ⟨1, [⟨OilStatus.in_water, 1, [1]⟩]⟩ 0).1.rows) := by
  refine ⟨?_, ?_, ?_, ?_⟩
  · refine C2_mass_sum_invariant.1
      { density := 900, viscosity := none, massFraction := [1/2, 1/2] }
      { density := 1000, kinematicViscosity := 1 }
      [{ sampleRow with mass := 2, massComponents := [0, 0] }]
      (by norm_num) ?_ ?_
    · intro r hr
      fin_cases hr
      simp [sampleRow]
    · unfold setRelativeBouyancy
      norm_num
  · refine C2_mass_sum_invariant.2.1 _ _ _ _ ?_
    intro r hr
    fin_cases hr
    norm_num
  · refine C2_mass_sum_invariant.2.2.1 _ _ _ ?_
    intro r hr
    fin_cases hr
    norm_num
  · refine C2_mass_sum_invariant.2.2.2 _ _ _ ?_
    intro r hr
    fin_cases hr
    norm_num

/-- Elements of a running-sum scan, by index. -/
theorem scanl_add_get? :
    ∀ (xs : List ℚ) (c : ℚ) (i : ℕ),
      (List.scanl (· + ·) c xs).get? i =
        if i ≤ xs.length then some (c + (xs.take i).sum) else none := by
  intro xs
  induction xs with
  | nil =>
    intro c i
    match i with
    | 0 => simp
    | j + 1 => simp
  | cons x xs ih =>
    intro c i
    rw [List.scanl_cons]
    match i with
    | 0 => simp
    | j + 1 =>
      rw [List.singleton_append, List.get?_cons_succ, ih (c + x) j]
      by_cases hj : j ≤ xs.length
      · rw [if_pos hj, if_pos (by simpa using Nat.succ_le_succ hj)]
        simp [add_assoc]
      · rw [if_neg hj, if_neg (by simpa using fun hh => hj (Nat.le_of_succ_le_succ hh))]

/-- Elements of `np.cumsum`, by index: the `i`-th running sum is the sum of
the first `i+1` values. -/
theorem cumsum_get? (l : List ℚ) (i : ℕ) :
    (cumsum l).get? i =
      if i < l.length then some ((l.take (i + 1)).sum) else none := by
  unfold cumsum
  rw [← List.drop_one, List.get?_drop, scanl_add_get? l 0 (1 + i)]
  have h1 : 1 + i = i + 1 := by omega
  rw [h1]
  by_cases h : i < l.length
  · rw [if_pos (by omega), if_pos h]
    simp
  · rw [if_neg (by omega), if_neg h]

/-- Soundness of `List.findIdx?`: a found index holds a satisfying element
and every earlier index holds a failing one. -/
theorem findIdx?_some_spec {α : Type} (p : α → Bool) :
    ∀ (l : List α) (i : ℕ), l.findIdx? p = some i →
      (∃ x, l.get? i = some x ∧ p x = true) ∧
      ∀ j, j < i → ∃ y, l.get? j = some y ∧ p y = false := by
  intro l
  induction l with
  | nil => intro i h; cases h
  | cons x xs ih =>
    intro i h
    rw [List.findIdx?_cons] at h
    by_cases hx : p x
    · rw [if_pos hx] at h
      cases h
      exact ⟨⟨x, rfl, hx⟩, fun j hj => absurd hj (Nat.not_lt_zero j)⟩
    · rw [if_neg hx, List.findIdx?_succ] at h
      match hxs : xs.findIdx? p with
      | none => rw [hxs] at h; cases h
      | some i' =>
        rw [hxs, Option.map_some'] at h
        cases h
        obtain ⟨⟨y, hy, hpy⟩, hmin⟩ := ih i' hxs
        refine ⟨⟨y, by simpa using hy, hpy⟩, ?_⟩
        intro j hj
        match j with
        | 0 => exact ⟨x, rfl, by simpa using hx⟩
        | j' + 1 =>
          obtain ⟨z, hz, hpz⟩ := hmin j' (by omega)
          exact ⟨z, by simpa using hz, hpz⟩

/-- `List.findIdx?` finds an index whenever a satisfying element exists. -/
theorem findIdx?_isSome_of_exists {α : Type} (p : α → Bool) :
    ∀ (l : List α), (∃ x ∈ l, p x = true) → ∃ i, l.findIdx? p = some i := by
  intro l
  induction l with
  | nil => rintro ⟨x, hx, _⟩; cases hx
  | cons x xs ih =>
    rintro ⟨y, hy, hpy⟩
    by_cases hx : p x
    · exact ⟨0, by rw [List.findIdx?_cons, if_pos hx]⟩
    · have hyxs : y ∈ xs := by
        rcases List.mem_cons.mp hy with rfl | hm
        · exact absurd hpy hx
        · exact hm
      obtain ⟨i, hi⟩ := ih ⟨y, hyxs, hpy⟩
      exact ⟨i + 1, by rw [List.findIdx?_cons, if_neg hx, List.findIdx?_succ,
        hi, Option.map_some']⟩

/-- C7, amended.  At an active step of a Skimmer that is on, with a
non-empty population: when some particle already carries `status == skim`,
`prepare_for_model_step` changes nothing; when none does, it marks every
particle if the population's mass is at or below the lifetime removal
threshold `amount_in_kg * efficiency` (the claim said only strictly
below), and otherwise marks exactly the shortest non-empty prefix of rows
whose cumulative mass reaches or exceeds that threshold. -/
theorem C7_skim_marking (sk : Skimmer) (st : SkimState) (dt t : ℚ)
    (hon : sk.isOn = true)
    (hwin : sk.activeStart < t + dt ∧ t < sk.activeStop)
    (hrows : st.data.rows ≠ []) :
    ((st.data.rows.countP (fun r => r.status = OilStatus.skim)) ≠ 0 →
      (sk.prepareForModelStep st dt t).2.2 = st) ∧
    ((st.data.rows.countP (fun r => r.status = OilStatus.skim)) = 0 →
      (totalMass st.data.rows ≤ sk.getMass st.sub sk.amount * sk.efficiency →
        (sk.prepareForModelStep st dt t).2.2.data.rows =
          st.data.rows.map setSkim) ∧
      (sk.getMass st.sub sk.amount * sk.efficiency < totalMass st.data.rows →
        ∃ k, 0 < k ∧
          (sk.prepareForModelStep st dt t).2.2.data.rows =
            (st.data.rows.take k).map setSkim ++ st.data.rows.drop k ∧
          sk.getMass st.sub sk.amount * sk.efficiency ≤
            ((st.data.rows.take k).map (·.mass)).sum ∧
          ∀ j, 1 ≤ j → j < k →
            ((st.data.rows.take j).map (·.mass)).sum <
              sk.getMass st.sub sk.amount * sk.efficiency)) := by
  unfold Skimmer.prepareForModelStep
  rw [if_neg (by simp [hon]), if_pos hwin]
  dsimp only
  unfold Skimmer.markStep
  constructor
  · intro hcount
    rw [if_neg hcount]
  · intro hcount
    rw [if_pos hcount]
    unfold skimMarkRows
    constructor
    · intro hle
      rw [if_pos (by unfold totalMass at hle; exact hle)]
    · intro hlt
      have hnotle : ¬ ((st.data.rows.map (·.mass)).sum ≤
          sk.getMass st.sub sk.amount * sk.efficiency) :=
        not_le.mpr (by unfold totalMass at hlt; exact hlt)
      rw [if_neg hnotle]
      set thr := sk.getMass st.sub sk.amount * sk.efficiency with hthr
      set masses := st.data.rows.map (·.mass) with hmasses
      have hne : masses ≠ [] := by
        rw [hmasses]
        simpa using hrows
      have hlen : 0 < masses.length := List.length_pos.mpr hne
      have hexists : ∃ c ∈ cumsum masses, decide (thr ≤ c) = true := by
        refine ⟨(masses.take masses.length).sum, ?_, ?_⟩
        · have := cumsum_get? masses (masses.length - 1)
          rw [if_pos (by omega)] at this
          have h2 : masses.length - 1 + 1 = masses.length := by omega
          rw [h2] at this
          exact List.get?_mem this
        · simp only [List.take_length, decide_eq_true_eq]
          exact le_of_lt (not_le.mp hnotle)
      obtain ⟨i, hi⟩ := findIdx?_isSome_of_exists _ _ hexists
      rw [hi]
      obtain ⟨⟨c, hc, hpc⟩, hmin⟩ := findIdx?_some_spec _ _ _ hi
      have hclen : i < masses.length := by
        by_contra hcon
        rw [cumsum_get?, if_neg hcon] at hc
        cases hc
      refine ⟨i + 1, Nat.succ_pos i, rfl, ?_, ?_⟩
      · rw [cumsum_get?, if_pos hclen] at hc
        cases hc
        rw [← List.map_take] at hpc
        exact of_decide_eq_true hpc
      · intro j hj1 hjk
        obtain ⟨y, hy, hpy⟩ := hmin (j - 1) (by omega)
        rw [cumsum_get?, if_pos (by omega)] at hy
        have hjj : j - 1 + 1 = j := by omega
        rw [hjj] at hy
        cases hy
        rw [List.map_take]
        exact not_le.mp (by simpa using hpy)

/-- C7, counterexample.  Population `[mass 1, mass 0]` and threshold
`amount_kg * efficiency = 1`: the code's `total_mass_removed >= sum` branch
marks both rows, although the population's mass (1) is not below the
threshold and the one-row prefix already reaches it — the claim's
shortest-prefix marking would mark exactly one row. -/
theorem C7_skim_marking_counterexample :
    ((Skimmer.prepareForModelStep ⟨1, AmountUnits.kilograms, 1, 0, 3600, true⟩
        ⟨⟨1⟩, ⟨1, [⟨OilStatus.in_water, 1, [1]⟩, ⟨OilStatus.in_water, 0, []⟩]⟩, 0⟩
        10 0).2.2.data.rows.map (·.status)) =
      [OilStatus.skim, OilStatus.skim] ∧
    ¬ (totalMass [⟨OilStatus.in_water, 1, [1]⟩, ⟨OilStatus.in_water, 0, []⟩] <
        Skimmer.getMass ⟨1, AmountUnits.kilograms, 1, 0, 3600, true⟩ ⟨1⟩ 1 * 1) ∧
    Skimmer.getMass ⟨1, AmountUnits.kilograms, 1, 0, 3600, true⟩ ⟨1⟩ 1 * 1 ≤
      ((([⟨OilStatus.in_water, 1, [1]⟩,
          (⟨OilStatus.in_water, 0, []⟩ : LE)]).take 1).map (·.mass)).sum := by
  refine ⟨?_, ?_, ?_⟩
  · norm_num [Skimmer.prepareForModelStep, Skimmer.markStep, Skimmer.getMass,
      skimMarkRows, totalMass, setSkim]
    simp
  · norm_num [totalMass, Skimmer.getMass]
  · norm_num [Skimmer.getMass]

/-- C7, witness for the amended theorem: a threshold (150) smaller than
the population's mass (1000) on the first active step. -/
theorem C7_skim_marking_witness :
    ∃ k, 0 < k ∧
      (Skimmer.prepareForModelStep ⟨500, AmountUnits.kilograms, 3/10, 0, 3600, true⟩
        ⟨⟨900⟩, ⟨1, [⟨OilStatus.in_water, 1000, [1000]⟩]⟩, 0⟩ 60 0).2.2.data.rows =
        (([⟨OilStatus.in_water, 1000, [1000]⟩] : List LE).take k).map setSkim ++
          ([⟨OilStatus.in_water, 1000, [1000]⟩] : List LE).drop k ∧
      Skimmer.getMass ⟨500, AmountUnits.kilograms, 3/10, 0, 3600, true⟩ ⟨900⟩ 500 *
          (3/10) ≤
        ((([⟨OilStatus.in_water, 1000, [1000]⟩] : List LE).take k).map (·.mass)).sum ∧
      ∀ j, 1 ≤ j → j < k →
        ((([⟨OilStatus.in_water, 1000, [1000]⟩] : List LE).take j).map (·.mass)).sum <
          Skimmer.getMass ⟨500, AmountUnits.kilograms, 3/10, 0, 3600, true⟩ ⟨900⟩ 500 *
            (3/10) :=
  ((C7_skim_marking ⟨500, AmountUnits.kilograms, 3/10, 0, 3600, true⟩
    ⟨⟨900⟩, ⟨1, [⟨OilStatus.in_water, 1000, [1000]⟩]⟩, 0⟩ 60 0 rfl
    (by norm_num) (by simp)).2
    (by simp)).2
    (by norm_num [Skimmer.getMass, totalMass])

/-- `_get_mass` is linear in the amount (unit conversion and the density
factor are both multiplicative). -/
theorem Skimmer.getMass_mul (sk : Skimmer) (sub : SubstanceQ) (a b : ℚ) :
    sk.getMass sub (a * b) = sk.getMass sub a * b := by
  unfold Skimmer.getMass
  cases sk.units
  · rfl
  · ring

/-- The per-second removal in kg is the lifetime removal in kg divided by
the active window's duration. -/
theorem Skimmer.getMass_rate (sk : Skimmer) (sub : SubstanceQ) :
    sk.getMass sub sk.rate =
      sk.getMass sub sk.amount / (sk.activeStop - sk.activeStart) := by
  unfold Skimmer.getMass Skimmer.rate
  cases sk.units
  · rfl
  · ring

/-- Pointwise subtraction distributes over a list sum. -/
theorem sum_map_sub {α : Type} (l : List α) (f g : α → ℚ) :
    (l.map (fun x => f x - g x)).sum = (l.map f).sum - (l.map g).sum := by
  induction l with
  | nil => simp
  | cons x xs ih =>
    simp only [List.map_cons, List.sum_cons, ih]
    ring

/-- A guarded sum equals the sum over the filtered list. -/
theorem sum_map_ite_filter (l : List LE) (p : LE → Prop) [DecidablePred p]
    (f : LE → ℚ) :
    (l.map (fun x => if p x then f x else 0)).sum =
      ((l.filter (fun x => decide (p x))).map f).sum := by
  induction l with
  | nil => rfl
  | cons x xs ih =>
    by_cases h : p x
    · simp only [List.map_cons, List.sum_cons, List.filter_cons, h, if_pos,
        decide_eq_true_eq, ih]
    · simp only [List.map_cons, List.sum_cons, List.filter_cons, h, if_neg,
        decide_eq_true_eq, ih]
      simp [h]

/-- `skimMarkRows` touches only the `status_codes` column: the mass and
mass-components columns are unchanged. -/
theorem skimMarkRows_masscomps (thr : ℚ) (rows : List LE) :
    (skimMarkRows thr rows).map (fun r => (r.mass, r.comps)) =
      rows.map (fun r => (r.mass, r.comps)) := by
  unfold skimMarkRows
  by_cases h : (rows.map (·.mass)).sum ≤ thr
  · rw [if_pos h, List.map_map]
    rfl
  · rw [if_neg h]
    rcases hfi : List.findIdx? (fun c => decide (thr ≤ c))
        (cumsum (List.map (fun x => x.mass) rows)) with _ | i
    · simp only [hfi]
    · simp only [hfi]
      rw [List.map_append, List.map_map]
      have hcomp : (fun r => ((r : LE).mass, r.comps)) ∘ setSkim =
          fun r => (r.mass, r.comps) := rfl
      rw [hcomp, ← List.map_append, List.take_append_drop]

/-- Marking preserves the total mass. -/
theorem totalMass_skimMarkRows (thr : ℚ) (rows : List LE) :
    totalMass (skimMarkRows thr rows) = totalMass rows := by
  unfold totalMass
  have h := congrArg (List.map Prod.fst) (skimMarkRows_masscomps thr rows)
  rw [List.map_map, List.map_map] at h
  exact congrArg List.sum h

/-- Marking preserves the mass-components invariant. -/
theorem rowsInv_skimMarkRows (thr : ℚ) (rows : List LE) (hInv : rowsInv rows) :
    rowsInv (skimMarkRows thr rows) := by
  intro r hr
  have h := skimMarkRows_masscomps thr rows
  have hmem : (r.mass, r.comps) ∈
      (skimMarkRows thr rows).map (fun r => (r.mass, r.comps)) :=
    List.mem_map_of_mem _ hr
  rw [h, List.mem_map] at hmem
  obtain ⟨s, hs, hpair⟩ := hmem
  have h1 : s.mass = r.mass := congrArg Prod.fst hpair
  have h2 : s.comps = r.comps := congrArg Prod.snd hpair
  rw [← h1, ← h2]
  exact hInv s hs

/-- Accounting of one active `weather_elements` call: `skimmed` grows by
`rm_mass` and the total particle mass shrinks by the same `rm_mass`. -/
theorem weatherElements_accounting (sk : Skimmer) (ts : ℚ) (st : SkimState)
    (hmask : skimMass st.data.rows ≠ 0) (hInv : rowsInv st.data.rows) :
    (sk.weatherElements true ts st).skimmed =
      st.skimmed + sk.massToRemove st.sub ts * sk.efficiency ∧
    totalMass (sk.weatherElements true ts st).data.rows =
      totalMass st.data.rows - sk.massToRemove st.sub ts * sk.efficiency := by
  have hne : st.data.rows ≠ [] := by
    intro h
    rw [h] at hmask
    exact hmask rfl
  unfold Skimmer.weatherElements
  rw [if_pos ⟨rfl, hne⟩]
  refine ⟨rfl, ?_⟩
  dsimp only
  set rm := sk.massToRemove st.sub ts * sk.efficiency with hrm
  set κ := rm / skimMass st.data.rows with hκ
  unfold totalMass
  rw [List.map_map]
  have hpt : st.data.rows.map ((fun r => r.mass) ∘ (fun r =>
      if r.status = OilStatus.skim then
        { r with comps := r.comps.map (fun c => (1 - κ) * c),
                 mass := (r.comps.map (fun c => (1 - κ) * c)).sum }
      else r)) = st.data.rows.map (fun r =>
        r.mass - (if r.status = OilStatus.skim then κ * r.mass else 0)) := by
    refine List.map_congr_left fun r hr => ?_
    by_cases h : r.status = OilStatus.skim
    · simp only [Function.comp, if_pos h]
      rw [List.sum_map_mul_left, List.map_id', hInv r hr]
      ring
    · simp only [Function.comp, if_neg h]
      ring
  rw [hpt, sum_map_sub, sum_map_ite_filter _ (fun r => r.status = OilStatus.skim)
    (fun r => κ * r.mass), List.sum_map_mul_left]
  have hsm : (List.map (fun r => r.mass)
      (List.filter (fun x => decide (x.status = OilStatus.skim))
        st.data.rows)).sum = skimMass st.data.rows := rfl
  rw [hsm, hκ, div_mul_cancel₀ rm hmask]

/-- The code's clipped `_timestep` of an active step that does not span
both window ends is the step's overlap with the window, expressed as a
difference of window clamps. -/
theorem clamp_active (sk : Skimmer) (t dt : ℚ)
    (hss : sk.activeStart ≤ sk.activeStop)
    (h1 : sk.activeStart < t + dt) (h2 : t < sk.activeStop)
    (hnospan : ¬(t < sk.activeStart ∧ sk.activeStop < t + dt)) :
    (if sk.activeStop < t + dt then sk.activeStop - t
     else if t < sk.activeStart then dt - (sk.activeStart - t) else dt) =
      clampW sk (t + dt) - clampW sk t := by
  by_cases hA : sk.activeStop < t + dt
  · have hts : sk.activeStart ≤ t := by
      by_contra hc
      push_neg at hc
      exact hnospan ⟨hc, hA⟩
    rw [if_pos hA]
    unfold clampW
    rw [min_eq_right (le_of_lt hA), max_eq_right hss,
      min_eq_left (le_of_lt h2), max_eq_right hts]
  · push_neg at hA
    rw [if_neg (not_lt.mpr hA)]
    by_cases hB : t < sk.activeStart
    · rw [if_pos hB]
      unfold clampW
      rw [min_eq_left hA, max_eq_right (le_of_lt h1),
        min_eq_left (le_of_lt h2), max_eq_left (le_of_lt hB)]
      ring
    · push_neg at hB
      rw [if_neg (not_lt.mpr hB)]
      unfold clampW
      rw [min_eq_left hA, max_eq_right (le_of_lt h1),
        min_eq_left (le_of_lt h2), max_eq_right hB]
      ring

/-- An inactive step has zero overlap with the window. -/
theorem clamp_inactive (sk : Skimmer) (t dt : ℚ)
    (hss : sk.activeStart ≤ sk.activeStop) (hdt : 0 ≤ dt)
    (h : ¬(sk.activeStart < t + dt ∧ t < sk.activeStop)) :
    clampW sk (t + dt) - clampW sk t = 0 := by
  by_cases hA : sk.activeStart < t + dt
  · have hstop : sk.activeStop ≤ t := by
      by_contra hc
      push_neg at hc
      exact h ⟨hA, hc⟩
    unfold clampW
    rw [min_eq_right (le_trans hstop (by linarith)), min_eq_right hstop,
      max_eq_right hss]
    ring
  · push_neg at hA
    unfold clampW
    rw [min_eq_left (le_trans hA hss),
      min_eq_left (le_trans (by linarith : t ≤ t + dt) (le_trans hA hss)),
      max_eq_left hA, max_eq_left (le_trans (by linarith : t ≤ t + dt) hA)]
    ring

/-- One full model step of an `on` Skimmer that does not span both window
ends: `skimmed` grows — and the total particle mass shrinks — by
`rate_in_kg * efficiency * (overlap of the step with the active window)`;
the invariant and the substance are preserved. -/
theorem step_accounting (sk : Skimmer) (hon : sk.isOn = true)
    (hss : sk.activeStart ≤ sk.activeStop)
    (t dt : ℚ) (hdt : 0 ≤ dt)
    (hnospan : ¬(t < sk.activeStart ∧ sk.activeStop < t + dt))
    (st : SkimState)
    (hgood : (sk.prepareForModelStep st dt t).1 = true →
      skimMass (sk.prepareForModelStep st dt t).2.2.data.rows ≠ 0)
    (hInv : rowsInv st.data.rows) :
    (sk.step st t dt).skimmed = st.skimmed +
      sk.getMass st.sub sk.rate * sk.efficiency *
        (clampW sk (t + dt) - clampW sk t) ∧
    totalMass (sk.step st t dt).data.rows = totalMass st.data.rows -
      sk.getMass st.sub sk.rate * sk.efficiency *
        (clampW sk (t + dt) - clampW sk t) ∧
    rowsInv (sk.step st t dt).data.rows ∧
    (sk.step st t dt).sub = st.sub := by
  by_cases hact : sk.activeStart < t + dt ∧ t < sk.activeStop
  · have hprep : sk.prepareForModelStep st dt t =
        (true, (if sk.activeStop < t + dt then sk.activeStop - t
          else if t < sk.activeStart then dt - (sk.activeStart - t) else dt),
         sk.markStep st) := by
      unfold Skimmer.prepareForModelStep
      rw [if_neg (by simp [hon]), if_pos hact]
    have hstep : sk.step st t dt = sk.weatherElements true
        (if sk.activeStop < t + dt then sk.activeStop - t
          else if t < sk.activeStart then dt - (sk.activeStart - t) else dt)
        (sk.markStep st) := by
      unfold Skimmer.step
      rw [hprep]
    have hmask : skimMass (sk.markStep st).data.rows ≠ 0 := by
      have h1 := hgood (by rw [hprep])
      rw [hprep] at h1
      exact h1
    have hInvP : rowsInv (sk.markStep st).data.rows := by
      unfold Skimmer.markStep
      by_cases hc : (st.data.rows.countP (fun r => r.status = OilStatus.skim)) = 0
      · simp only [if_pos hc]
        exact rowsInv_skimMarkRows _ _ hInv
      · simp only [if_neg hc]
        exact hInv
    have hmassP : totalMass (sk.markStep st).data.rows =
        totalMass st.data.rows := by
      unfold Skimmer.markStep
      by_cases hc : (st.data.rows.countP (fun r => r.status = OilStatus.skim)) = 0
      · simp only [if_pos hc]
        exact totalMass_skimMarkRows _ _
      · simp only [if_neg hc]
    have hsubP : (sk.markStep st).sub = st.sub := rfl
    have hskimmedP : (sk.markStep st).skimmed = st.skimmed := rfl
    have hacc := weatherElements_accounting sk
      (if sk.activeStop < t + dt then sk.activeStop - t
        else if t < sk.activeStart then dt - (sk.activeStart - t) else dt)
      (sk.markStep st) hmask hInvP
    have hclamp := clamp_active sk t dt hss hact.1 hact.2 hnospan
    have hrate : ∀ x : ℚ, sk.massToRemove st.sub x =
        sk.getMass st.sub sk.rate * x :=
      fun x => sk.getMass_mul st.sub sk.rate x
    refine ⟨?_, ?_, ?_, ?_⟩
    · rw [hstep, hacc.1, hskimmedP, hsubP, hrate, hclamp]
      ring
    · rw [hstep, hacc.2, hmassP, hsubP, hrate, hclamp]
      ring
    · rw [hstep]
      unfold Skimmer.weatherElements
      split
      · exact rowsInv_condUpdate _ hInvP _ _
      · exact hInvP
    · rw [hstep]
      unfold Skimmer.weatherElements
      split
      · rfl
      · rfl
  · have hprep : sk.prepareForModelStep st dt t = (false, dt, st) := by
      unfold Skimmer.prepareForModelStep
      rw [if_neg (by simp [hon]), if_neg hact]
    have hstep : sk.step st t dt = st := by
      unfold Skimmer.step
      rw [hprep]
      unfold Skimmer.weatherElements
      rw [if_neg (by simp)]
    have hclamp := clamp_inactive sk t dt hss hdt hact
    rw [hstep, hclamp]
    exact ⟨by ring, by ring, hInv, rfl⟩

/-- Telescoped accounting over a run of contiguous steps: `skimmed` grows —
and the total mass shrinks — by `rate_in_kg * efficiency *` (overlap of
`[t, t + sum(dts)]` with the active window). -/
theorem run_accounting (sk : Skimmer) (hon : sk.isOn = true)
    (hss : sk.activeStart ≤ sk.activeStop) :
    ∀ (dts : List ℚ) (t : ℚ) (st : SkimState),
      stepsOK sk t dts = true → goodTrace sk t dts st = true →
      rowsInv st.data.rows →
      (Skimmer.run sk t dts st).skimmed = st.skimmed +
        sk.getMass st.sub sk.rate * sk.efficiency *
          (clampW sk (t + dts.sum) - clampW sk t) ∧
      totalMass (Skimmer.run sk t dts st).data.rows = totalMass st.data.rows -
        sk.getMass st.sub sk.rate * sk.efficiency *
          (clampW sk (t + dts.sum) - clampW sk t) := by
  intro dts
  induction dts with
  | nil =>
    intro t st _ _ _
    constructor
    · show st.skimmed = _
      simp
    · show totalMass st.data.rows = _
      simp
  | cons dt rest ih =>
    intro t st hok hgood hInv
    unfold stepsOK at hok
    rw [Bool.and_eq_true, Bool.and_eq_true] at hok
    obtain ⟨⟨hdt, hnospan⟩, hokrest⟩ := hok
    rw [decide_eq_true_eq] at hdt
    have hnospan2 : ¬(t < sk.activeStart ∧ sk.activeStop < t + dt) := by
      intro ⟨ha, hb⟩
      rw [Bool.not_eq_true', Bool.and_eq_false_iff] at hnospan
      rcases hnospan with h | h
      · rw [decide_eq_false_iff_not] at h
        exact h ha
      · rw [decide_eq_false_iff_not] at h
        exact h hb
    unfold goodTrace at hgood
    rw [Bool.and_eq_true] at hgood
    obtain ⟨hg1, hgrest⟩ := hgood
    have hg1imp : (sk.prepareForModelStep st dt t).1 = true →
        skimMass (sk.prepareForModelStep st dt t).2.2.data.rows ≠ 0 := by
      intro hp
      rw [Bool.or_eq_true] at hg1
      rcases hg1 with h | h
      · rw [Bool.not_eq_eq_eq_not] at h
        rw [hp] at h
        cases h
      · exact of_decide_eq_true h
    have hstep := step_accounting sk hon hss t dt hdt hnospan2 st hg1imp hInv
    have hihres := ih (t + dt) (sk.step st t dt) hokrest hgrest hstep.2.2.1
    show (Skimmer.run sk (t + dt) rest (sk.step st t dt)).skimmed = _ ∧
      totalMass (Skimmer.run sk (t + dt) rest (sk.step st t dt)).data.rows = _
    rw [hihres.1, hihres.2, hstep.1, hstep.2.1, hstep.2.2.2]
    constructor
    · rw [List.sum_cons]
      have hadd : t + (dt + rest.sum) = t + dt + rest.sum := by ring
      rw [hadd]
      ring
    · rw [List.sum_cons]
      have hadd : t + (dt + rest.sum) = t + dt + rest.sum := by ring
      rw [hadd]
      ring

/-- C3, counterexample.  A single step `[-600 s, 4200 s]` strictly contains
the whole active window `[0 s, 3600 s]` and certainly covers it, yet the
Skimmer with `amount = 500 kg`, `units = kg`, `efficiency = 0.3` removes
175 kg, not the claimed 150 kg: the clipping in
`prepare_for_model_step` (cleanup.py lines 118-125) first computes
`_timestep = dt - (active_start - model_time) = 4200` and then overrides
it with `active_stop - model_time = 4200` as well, both exceeding the
3600-second overlap, so `weather_elements` removes
`(500/3600) * 4200 * 0.3 = 175` kilograms. -/
theorem C3_skimmer_removal_counterexample :
    (Skimmer.run ⟨500, AmountUnits.kilograms, 3/10, 0, 3600, true⟩ (-600)
      [4800] ⟨⟨900⟩, ⟨1, [⟨OilStatus.in_water, 1000, [1000]⟩]⟩, 0⟩).skimmed =
      175 ∧
    totalMass ([⟨OilStatus.in_water, 1000, [1000]⟩] : List LE) -
      totalMass (Skimmer.run ⟨500, AmountUnits.kilograms, 3/10, 0, 3600, true⟩
        (-600) [4800]
        ⟨⟨900⟩, ⟨1, [⟨OilStatus.in_water, 1000, [1000]⟩]⟩, 0⟩).data.rows =
      175 ∧
    ((175 : ℚ) = 150 → False) := by
  refine ⟨?_, ?_, by norm_num⟩
  · norm_num [Skimmer.run, Skimmer.step, Skimmer.prepareForModelStep,
      Skimmer.markStep, skimMarkRows, cumsum, skimMass,
      Skimmer.weatherElements, Skimmer.massToRemove, Skimmer.getMass,
      Skimmer.rate, totalMass, setSkim, List.scanl]
    simp
  · norm_num [Skimmer.run, Skimmer.step, Skimmer.prepareForModelStep,
      Skimmer.markStep, skimMarkRows, cumsum, skimMass,
      Skimmer.weatherElements, Skimmer.massToRemove, Skimmer.getMass,
      Skimmer.rate, totalMass, setSkim, List.scanl]
    simp
    norm_num

/-- C3, amended.  At each active step, `Skimmer.weather_elements` removes
exactly `rate * effective_step_duration * efficiency` kilograms (with
`rate = amount-in-kg / active-window duration`): `skimmed` grows by it,
the total particle mass shrinks by it, and every `skim`-marked particle's
`mass_components` are scaled by the one uniform fraction
`1 - rm_mass/marked_mass` with `mass` recomputed as the component sum.
Consequently, a Skimmer with `amount = 500 kg`, `efficiency = 0.3` and a
1-hour active window fully covered by nonnegative contiguous steps — none
of which strictly contains the whole active window (there the code's
clipped `_timestep` exceeds the overlap and it over-removes, see the
counterexample), each active step seeing nonzero marked mass — removes
150 kg in total, and the final `skimmed` value is 150 kg. -/
theorem C3_skimmer_removal :
    (∀ (sk : Skimmer) (ts : ℚ) (st : SkimState),
      skimMass st.data.rows ≠ 0 → rowsInv st.data.rows →
      (sk.weatherElements true ts st).skimmed = st.skimmed +
        sk.getMass st.sub sk.amount / (sk.activeStop - sk.activeStart) * ts *
          sk.efficiency ∧
      totalMass st.data.rows - totalMass (sk.weatherElements true ts st).data.rows =
        sk.getMass st.sub sk.amount / (sk.activeStop - sk.activeStart) * ts *
          sk.efficiency ∧
      (sk.weatherElements true ts st).data.rows = st.data.rows.map (fun r =>
        if r.status = OilStatus.skim then
          { r with
            comps := r.comps.map (fun c =>
              (1 - sk.massToRemove st.sub ts * sk.efficiency /
                skimMass st.data.rows) * c),
            mass := (r.comps.map (fun c =>
              (1 - sk.massToRemove st.sub ts * sk.efficiency /
                skimMass st.data.rows) * c)).sum }
        else r)) ∧
    (∀ (sk : Skimmer) (dts : List ℚ) (t0 : ℚ) (st : SkimState),
      sk.amount = 500 → sk.units = AmountUnits.kilograms →
      sk.efficiency = 3 / 10 → sk.activeStop - sk.activeStart = 3600 →
      sk.isOn = true → st.skimmed = 0 → rowsInv st.data.rows →
      stepsOK sk t0 dts = true → goodTrace sk t0 dts st = true →
      t0 ≤ sk.activeStart → sk.activeStop ≤ t0 + dts.sum →
      (Skimmer.run sk t0 dts st).skimmed = 150 ∧
      totalMass st.data.rows -
        totalMass (Skimmer.run sk t0 dts st).data.rows = 150) := by
  constructor
  · intro sk ts st hmask hInv
    have hne : st.data.rows ≠ [] := by
      intro h
      rw [h] at hmask
      exact hmask rfl
    have hacc := weatherElements_accounting sk ts st hmask hInv
    have hrm : sk.massToRemove st.sub ts =
        sk.getMass st.sub sk.amount / (sk.activeStop - sk.activeStart) * ts := by
      unfold Skimmer.massToRemove
      rw [sk.getMass_mul, sk.getMass_rate]
    refine ⟨?_, ?_, ?_⟩
    · rw [hacc.1, hrm]
    · rw [hacc.2, hrm]
      ring
    · unfold Skimmer.weatherElements
      rw [if_pos ⟨rfl, hne⟩]
  · intro sk dts t0 st hamount hunits heff hdur hon hsk0 hInv hok hgood ht0 hend
    have hss : sk.activeStart ≤ sk.activeStop := by linarith
    have hrun := run_accounting sk hon hss dts t0 st hok hgood hInv
    have hclampEnd : clampW sk (t0 + dts.sum) = sk.activeStop := by
      unfold clampW
      rw [min_eq_right hend, max_eq_right hss]
    have hclamp0 : clampW sk t0 = sk.activeStart := by
      unfold clampW
      rw [min_eq_left (le_trans ht0 hss), max_eq_left ht0]
    have hk : sk.getMass st.sub sk.rate = 500 / 3600 := by
      unfold Skimmer.getMass
      rw [hunits]
      unfold Skimmer.rate
      rw [hamount, hdur]
    constructor
    · rw [hrun.1, hsk0, heff, hclampEnd, hclamp0, hk, hdur]
      norm_num
    · rw [hrun.2, heff, hclampEnd, hclamp0, hk, hdur]
      norm_num

/-- C3, witness: the per-step removal on one marked particle, and the
150 kg scenario over a single step covering the whole 1-hour window on a
1000 kg particle. -/
theorem C3_skimmer_removal_witness :
    (Skimmer.weatherElements ⟨500, AmountUnits.kilograms, 3/10, 0, 3600, true⟩
      true 60 ⟨⟨900⟩, ⟨1, [⟨OilStatus.skim, 10, [10]⟩]⟩, 0⟩).skimmed =
      0 + Skimmer.getMass ⟨500, AmountUnits.kilograms, 3/10, 0, 3600, true⟩
        ⟨900⟩ 500 / (3600 - 0) * 60 * (3/10) ∧
    (Skimmer.run ⟨500, AmountUnits.kilograms, 3/10, 0, 3600, true⟩ 0 [3600]
      ⟨⟨900⟩, ⟨1, [⟨OilStatus.in_water, 1000, [1000]⟩]⟩, 0⟩).skimmed = 150 ∧
    totalMass ([⟨OilStatus.in_water, 1000, [1000]⟩] : List LE) -
      totalMass (Skimmer.run ⟨500, AmountUnits.kilograms, 3/10, 0, 3600, true⟩
        0 [3600]
        ⟨⟨900⟩, ⟨1, [⟨OilStatus.in_water, 1000, [1000]⟩]⟩, 0⟩).data.rows =
      150 := by
  have h1 := (C3_skimmer_removal.1
    ⟨500, AmountUnits.kilograms, 3/10, 0, 3600, true⟩ 60
    ⟨⟨900⟩, ⟨1, [⟨OilStatus.skim, 10, [10]⟩]⟩, 0⟩
    (by norm_num [skimMass])
    (by intro r hr; fin_cases hr; norm_num)).1
  have h2 := C3_skimmer_removal.2
    ⟨500, AmountUnits.kilograms, 3/10, 0, 3600, true⟩ [3600] 0
    ⟨⟨900⟩, ⟨1, [⟨OilStatus.in_water, 1000, [1000]⟩]⟩, 0⟩
    rfl rfl rfl (by norm_num) rfl rfl
    (by intro r hr; fin_cases hr; norm_num)
    (by norm_num [stepsOK])
    (by
      norm_num [goodTrace, Skimmer.prepareForModelStep, Skimmer.markStep,
        skimMarkRows, cumsum, skimMass, Skimmer.getMass, setSkim, List.scanl]
      simp)
    (by norm_num)
    (by norm_num)
  exact ⟨h1, h2.1, h2.2⟩

/-- Pointwise reading of a masked assignment `a[mask] = repl`: a position
where the mask holds reads the replacement element whose rank is the
number of earlier mask hits; any other position reads the original. -/
theorem setMasked_get? {α : Type} :
    ∀ (a : List α) (mask : List Bool) (repl : List α) (i : ℕ),
      mask.length = a.length → repl.length = mask.count true →
      (setMasked a mask repl).get? i =
        if mask.get? i = some true then
          repl.get? ((mask.take i).count true)
        else a.get? i := by
  intro a
  induction a with
  | nil =>
    intro mask repl i hm _
    have hmnil : mask = [] := List.eq_nil_of_length_eq_zero (by simpa using hm)
    subst hmnil
    simp [setMasked]
  | cons x xs ih =>
    intro mask repl i hm hr
    match mask with
    | [] => cases hm
    | b :: bs =>
      cases b
      · match i with
        | 0 => simp [setMasked]
        | j + 1 =>
          show (setMasked xs bs repl).get? j = _
          rw [ih bs repl j (by simpa using hm) (by simpa using hr)]
          simp [List.count_cons]
      · match repl with
        | [] =>
          exfalso
          rw [List.count_cons] at hr
          simp at hr
        | r :: rs =>
          match i with
          | 0 => simp [setMasked]
          | j + 1 =>
            show (setMasked xs bs rs).get? j = _
            rw [ih bs rs j (by simpa using hm)
              (by rw [List.count_cons] at hr; simpa using hr)]
            by_cases hb : bs.get? j = some true
            · rw [if_pos hb, if_pos (by simpa using hb)]
              simp [List.count_cons]
            · rw [if_neg hb, if_neg (by simpa using hb)]
              simp

/-- Storing under one name leaves every other name's lookup unchanged. -/
theorem lookupArray_storeArray_ne (das : List (String × List Val))
    (n m : String) (c : List Val) (h : m ≠ n) :
    lookupArray (storeArray das n c) m = lookupArray das m := by
  unfold lookupArray storeArray
  induction das with
  | nil => rfl
  | cons kv rest ih =>
    by_cases hk : kv.1 = m
    · rw [List.map_cons]
      have hsel : (if kv.1 = n then (kv.1, c) else kv).1 = kv.1 := by
        by_cases hn : kv.1 = n
        · rw [if_pos hn]
        · rw [if_neg hn]
      rw [List.find?_cons_of_pos _ (by rw [hsel]; simp [hk]),
        List.find?_cons_of_pos _ (by simp [hk])]
      have hn : ¬ kv.1 = n := fun hc => h (hk ▸ hc)
      rw [if_neg hn]
    · rw [List.map_cons]
      have hsel : (if kv.1 = n then (kv.1, c) else kv).1 = kv.1 := by
        by_cases hn : kv.1 = n
        · rw [if_pos hn]
        · rw [if_neg hn]
      rw [List.find?_cons_of_neg _ (by rw [hsel]; simp [hk]),
        List.find?_cons_of_neg _ (by simp [hk])]
      exact ih

/-- Storing under a name that is present makes its lookup read the stored
column. -/
theorem lookupArray_storeArray_self (das : List (String × List Val))
    (n : String) (c col : List Val)
    (h : lookupArray das n = Except.ok col) :
    lookupArray (storeArray das n c) n = Except.ok c := by
  unfold lookupArray storeArray
  unfold lookupArray at h
  induction das with
  | nil => cases h
  | cons kv rest ih =>
    by_cases hk : kv.1 = n
    · rw [List.map_cons]
      have hsel : (if kv.1 = n then (kv.1, c) else kv) = (kv.1, c) := if_pos hk
      rw [hsel, List.find?_cons_of_pos _ (by simp [hk])]
    · rw [List.map_cons]
      have hsel : (if kv.1 = n then (kv.1, c) else kv) = kv := if_neg hk
      rw [hsel, List.find?_cons_of_neg _ (by simp [hk])]
      rw [List.find?_cons_of_neg _ (by simp [hk])] at h
      exact ih h

/-- Characterization of the write-back fold of `updateFromSubstancedata`:
it succeeds when every requested array is present in the main store and in
the working copy, it changes no other structure fields or columns, and it
replaces each requested column by the masked assignment from the copy. -/
theorem updateFold_spec (data : List (String × List Val)) (mask : List Bool) :
    ∀ (arrays : List String) (acc : SCM),
      (∀ a ∈ arrays, ∃ col, lookupArray acc.dataArrays a = Except.ok col) →
      (∀ a ∈ arrays, ∃ kv, data.find? (fun kv => kv.1 = a) = some kv) →
      arrays.Nodup →
      ∃ out, (arrays.foldlM (fun acc a => do
          let mainCol ← lookupArray acc.dataArrays a
          match data.find? (fun kv => kv.1 = a) with
          | none => Except.error ("KeyError: " ++ a)
          | some kv =>
            Except.ok { acc with
              dataArrays := storeArray acc.dataArrays a
                (setMasked mainCol mask kv.2) }) acc) = Except.ok out ∧
        out.substances = acc.substances ∧ out.subsData = acc.subsData ∧
        (∀ m, m ∉ arrays →
          lookupArray out.dataArrays m = lookupArray acc.dataArrays m) ∧
        (∀ a ∈ arrays, ∀ mainCol kv,
          lookupArray acc.dataArrays a = Except.ok mainCol →
          data.find? (fun kv => kv.1 = a) = some kv →
          lookupArray out.dataArrays a =
            Except.ok (setMasked mainCol mask kv.2)) := by
  intro arrays
  induction arrays with
  | nil =>
    intro acc _ _ _
    exact ⟨acc, rfl, rfl, rfl, fun m _ => rfl, fun a ha => absurd ha
      (List.not_mem_nil a)⟩
  | cons a rest ih =>
    intro acc hmain hdata hnodup
    obtain ⟨col, hcol⟩ := hmain a (List.mem_cons_self a rest)
    obtain ⟨kv, hkv⟩ := hdata a (List.mem_cons_self a rest)
    have hanotin : a ∉ rest := (List.nodup_cons.mp hnodup).1
    have hnodup2 : rest.Nodup := (List.nodup_cons.mp hnodup).2
    set acc1 : SCM := { acc with
      dataArrays := storeArray acc.dataArrays a (setMasked col mask kv.2) }
      with hacc1
    have hmain2 : ∀ b ∈ rest, ∃ colb,
        lookupArray acc1.dataArrays b = Except.ok colb := by
      intro b hb
      obtain ⟨colb, hcolb⟩ := hmain b (List.mem_cons_of_mem a hb)
      refine ⟨colb, ?_⟩
      rw [hacc1]
      have hbne : b ≠ a := fun hc => hanotin (hc ▸ hb)
      rw [lookupArray_storeArray_ne acc.dataArrays a b _ hbne]
      exact hcolb
    have hdata2 : ∀ b ∈ rest, ∃ kvb,
        data.find? (fun kv => kv.1 = b) = some kvb :=
      fun b hb => hdata b (List.mem_cons_of_mem a hb)
    obtain ⟨out, hfold, hsub, hsdata, hother, hupd⟩ := ih acc1 hmain2 hdata2 hnodup2
    refine ⟨out, ?_, hsub, hsdata, ?_, ?_⟩
    · rw [List.foldlM_cons, hcol]
      show Except.bind _ _ = _
      rw [hkv]
      exact hfold
    · intro m hm
      have hmr : m ∉ rest := fun hc => hm (List.mem_cons_of_mem a hc)
      have hma : m ≠ a := fun hc => hm (hc ▸ List.mem_cons_self a rest)
      rw [hother m hmr, hacc1, lookupArray_storeArray_ne acc.dataArrays a m _ hma]
    · intro b hb mainCol kvb hmainb hkvb
      rcases List.mem_cons.mp hb with rfl | hbr
      · have hcoleq : mainCol = col := by
          rw [hcol] at hmainb
          cases hmainb
          rfl
        have hkveq : kvb = kv := by
          rw [hkv] at hkvb
          cases hkvb
          rfl
        subst hcoleq
        subst hkveq
        rw [hother b hanotin, hacc1]
        exact lookupArray_storeArray_self acc.dataArrays b _ mainCol hmainb
      · have hbne : b ≠ a := fun hc => hanotin (hc ▸ hbr)
        refine hupd b hbr mainCol kvb ?_ hkvb
        rw [hacc1, lookupArray_storeArray_ne acc.dataArrays a b _ hbne]
        exact hmainb

/-- C9: with exactly one substance, `_set_substancespills` makes the
per-substance data entry the main store itself (no copy), so
`itersubstancedata` hands the weatherers the main store's arrays directly
and `update_from_substancedata` is a no-op; with more than one substance,
`update_from_substancedata` copies each requested array from the
per-substance working copy back into the main store at exactly the rows
whose `'substance'` index matches. -/
theorem C9_substance_view :
    (∀ (sc : SCM) (arrays : List String) (ix : ℕ),
      sc.substances.length = 1 →
      (setSubstancespills sc).subsData = [sc.dataArrays] ∧
      (sc.substances = [true] →
        itersubstancedata (setSubstancespills sc) arrays =
          [(true, sc.dataArrays)]) ∧
      updateFromSubstancedata sc arrays ix = Except.ok sc) ∧
    (∀ (sc : SCM) (arrays : List String) (ix : ℕ)
        (data : List (String × List Val)) (subsCol : List Val),
      1 < sc.substances.length →
      sc.subsData.get? ix = some data →
      lookupArray sc.dataArrays ("substance") = Except.ok subsCol →
      (∀ a ∈ arrays, ∃ col, lookupArray sc.dataArrays a = Except.ok col) →
      (∀ a ∈ arrays, ∃ kv, data.find? (fun kv => kv.1 = a) = some kv) →
      arrays.Nodup →
      ∃ out, updateFromSubstancedata sc arrays ix = Except.ok out ∧
        out.substances = sc.substances ∧ out.subsData = sc.subsData ∧
        (∀ m, m ∉ arrays →
          lookupArray out.dataArrays m = lookupArray sc.dataArrays m) ∧
        (∀ a ∈ arrays, ∀ mainCol kv,
          lookupArray sc.dataArrays a = Except.ok mainCol →
          data.find? (fun kv => kv.1 = a) = some kv →
          lookupArray out.dataArrays a = Except.ok
            (setMasked mainCol
              (subsCol.map (fun v => decide (v = Val.idx ix))) kv.2) ∧
          (subsCol.length = mainCol.length →
            kv.2.length =
              (subsCol.map (fun v => decide (v = Val.idx ix))).count true →
            ∀ i, (setMasked mainCol
                (subsCol.map (fun v => decide (v = Val.idx ix))) kv.2).get? i =
              if subsCol.get? i = some (Val.idx ix) then
                kv.2.get? (((subsCol.take i).map
                  (fun v => decide (v = Val.idx ix))).count true)
              else mainCol.get? i))) := by
  constructor
  · intro sc arrays ix h1
    refine ⟨?_, ?_, ?_⟩
    · unfold setSubstancespills
      rw [if_pos h1]
    · intro h2
      unfold itersubstancedata setSubstancespills
      rw [if_pos h1]
      rw [if_neg (by rw [h1]; norm_num)]
      rw [h2]
      rfl
    · unfold updateFromSubstancedata
      rw [if_pos h1]
  · intro sc arrays ix data subsCol hgt hdata hcol hmain hfind hnodup
    unfold updateFromSubstancedata
    rw [if_neg (by omega), hdata]
    dsimp only
    rw [hcol]
    show ∃ out, Except.bind _ _ = Except.ok out ∧ _
    obtain ⟨out, hfold, hsub, hsdata, hother, hupd⟩ :=
      updateFold_spec data (subsCol.map (fun v => decide (v = Val.idx ix)))
        arrays sc hmain hfind hnodup
    refine ⟨out, ?_, hsub, hsdata, hother, ?_⟩
    · exact hfold
    · intro a ha mainCol kv hmaina hkva
      refine ⟨hupd a ha mainCol kv hmaina hkva, ?_⟩
      intro hlen hrepl i
      rw [setMasked_get? mainCol _ kv.2 i (by rw [List.length_map]; exact hlen)
        hrepl]
      rw [List.get?_map, List.map_take]
      cases hv : subsCol.get? i with
      | none =>
        rw [if_neg (by simp), if_neg (by simp)]
      | some v =>
        by_cases hvq : v = Val.idx ix
        · rw [if_pos (by simp [hvq]), if_pos (by rw [hvq])]
        · rw [if_neg (by simp [hvq]), if_neg (by simp [hvq])]

/-- C9, witness: a one-substance container and a two-substance write-back
of one array. -/
theorem C9_substance_view_witness :
    ((setSubstancespills
        { dataArrays := [("mass", [Val.q 1])], substances := [true],
          subsData := [] }).subsData = [[("mass", [Val.q 1])]] ∧
      itersubstancedata (setSubstancespills
        { dataArrays := [("mass", [Val.q 1])], substances := [true],
          subsData := [] }) ["mass"] = [(true, [("mass", [Val.q 1])])] ∧
      updateFromSubstancedata
        { dataArrays := [("mass", [Val.q 1])], substances := [true],
          subsData := [] } ["mass"] 0 =
        Except.ok { dataArrays := [("mass", [Val.q 1])],
                    substances := [true], subsData := [] }) ∧
    (∃ out, updateFromSubstancedata
        { dataArrays := [("substance", [Val.idx 0, Val.idx 1]),
                         ("mass", [Val.q 1, Val.q 2])],
          substances := [true, true],
          subsData := [[("mass", [Val.q 5])], [("mass", [Val.q 7])]] }
        ["mass"] 1 = Except.ok out ∧
      out.substances = [true, true] ∧
      lookupArray out.dataArrays ("mass") = Except.ok
        (setMasked [Val.q 1, Val.q 2]
          ([Val.idx 0, Val.idx 1].map (fun v => decide (v = Val.idx 1)))
          [Val.q 7])) := by
  constructor
  · have h := (C9_substance_view.1
      { dataArrays := [("mass", [Val.q 1])], substances := [true],
        subsData := [] } ["mass"] 0 rfl)
    exact ⟨h.1, h.2.1 rfl, h.2.2⟩
  · obtain ⟨out, hok, hsub, _, _, hupd⟩ := C9_substance_view.2
      { dataArrays := [("substance", [Val.idx 0, Val.idx 1]),
                       ("mass", [Val.q 1, Val.q 2])],
        substances := [true, true],
        subsData := [[("mass", [Val.q 5])], [("mass", [Val.q 7])]] }
      ["mass"] 1 [("mass", [Val.q 7])] [Val.idx 0, Val.idx 1]
      (by norm_num) rfl rfl
      (by intro a ha; fin_cases ha; exact ⟨[Val.q 1, Val.q 2], rfl⟩)
      (by intro a ha; fin_cases ha; exact ⟨("mass", [Val.q 7]), rfl⟩)
      (by simp)
    refine ⟨out, hok, hsub, ?_⟩
    exact (hupd ("mass") (by simp) [Val.q 1, Val.q 2] ("mass", [Val.q 7]) rfl rfl).1

end PyGnome
